import Mathlib

/-!
Verification development for the sapc IDL compiler.

Shallow embedding of the compiler pipeline (lexer, schema compiler,
validator, JSON projector) translated from the C++ sources, together
with theorems settling the specification claims.

Machine integers (`int`, `long long`) are modelled as `Int`/`Nat`;
object identity (C++ pointers into the `Context` arenas) is modelled
as indices (`Nat`) into explicit arena lists; `unordered_map`s are
modelled as association lists keyed by the same data the C++ keys or
hashes are computed from.
-/

namespace Sapc

/-! ## Lexer (lexer.hh / lexer.cc)

`TokenType` is translated from lexer.hh; `tokenize` from lexer.cc.
The C++ mutable cursor (`position`, `line`, `lineStart`) becomes an
explicit remaining-character list plus (line, column) counters; the
C++ computes a token column as `start - lineStart + 1`, which equals
the running 1-based column counter maintained here.
-/

inductive TokenType where
  | unknown
  | identifier
  | string
  | number
  | leftBrace
  | rightBrace
  | leftParen
  | rightParen
  | leftBracket
  | rightBracket
  | comma
  | dot
  | equal
  | colon
  | semiColon
  | asterisk
  | keywordModule
  | keywordImport
  | keywordStruct
  | keywordUnion
  | keywordAttribute
  | keywordTypename
  | keywordConst
  | keywordEnum
  | keywordTrue
  | keywordFalse
  | keywordNull
  | keywordNamespace
  | keywordUsing
  | keywordClass
  | keywordAbstract
  | keywordFinal
  | keywordUse
  | endOfFile
deriving DecidableEq, Repr

structure Token where
  type : TokenType := .unknown
  line : Nat := 0
  col : Nat := 0
  dataNumber : Int := 0
  dataString : String := ""
deriving DecidableEq, Repr

def isIdentStartChar (ch : Char) : Bool :=
  (ch ≥ 'a' && ch ≤ 'z') || (ch ≥ 'A' && ch ≤ 'Z') || ch = '_'

def isIdentChar (ch : Char) : Bool :=
  isIdentStartChar ch || (ch ≥ '0' && ch ≤ '9')

def isDigit (ch : Char) : Bool := ch ≥ '0' && ch ≤ '9'

def isWhiteSpace (ch : Char) : Bool :=
  ch = ' ' || ch = '\t' || ch = '\r' || ch = '\n'

/-- Advance the (line, column) counters over one consumed character,
mirroring the C++ `advance` lambda (a newline starts a new line whose
next character has column 1). -/
def advancePos (ch : Char) (line col : Nat) : Nat × Nat :=
  if ch = '\n' then (line + 1, 1) else (line, col + 1)

/-- Advance the counters over a list of consumed characters. -/
def advancePosList (cs : List Char) (line col : Nat) : Nat × Nat :=
  match cs with
  | [] => (line, col)
  | c :: rest =>
      let lc := advancePos c line col
      advancePosList rest lc.1 lc.2

/-- The `match` lambda of `tokenize`: try to consume `input` from the
front of the source; with `only` set, refuse when the character right
after the matched text is an identifier character.  Returns the
remaining source on success. -/
def matchInput (input : List Char) (only : Bool) (src : List Char) :
    Option (List Char) :=
  if input.isPrefixOf src then
    let rest := src.drop input.length
    if only then
      match rest with
      | [] => some rest
      | c :: _ => if isIdentChar c then none else some rest
    else some rest
  else none

/-- The static token table of `tokenize` (punctuation entries first,
then reserved words flagged as keywords), in source order. -/
def tokenMap : List (List Char × TokenType × Bool) :=
  [ (['{'], .leftBrace, false)
  , (['}'], .rightBrace, false)
  , (['('], .leftParen, false)
  , ([')'], .rightParen, false)
  , (['['], .leftBracket, false)
  , ([']'], .rightBracket, false)
  , ([','], .comma, false)
  , (['.'], .dot, false)
  , (['='], .equal, false)
  , ([':'], .colon, false)
  , ([';'], .semiColon, false)
  , (['*'], .asterisk, false)
  , ("module".toList, .keywordModule, true)
  , ("import".toList, .keywordImport, true)
  , ("attribute".toList, .keywordAttribute, true)
  , ("typename".toList, .keywordTypename, true)
  , ("const".toList, .keywordConst, true)
  , ("struct".toList, .keywordStruct, true)
  , ("union".toList, .keywordUnion, true)
  , ("enum".toList, .keywordEnum, true)
  , ("true".toList, .keywordTrue, true)
  , ("false".toList, .keywordFalse, true)
  , ("null".toList, .keywordNull, true)
  ]

/-- Try the token table entries in order. -/
def matchTokenMap (entries : List (List Char × TokenType × Bool))
    (src : List Char) : Option (TokenType × List Char) :=
  match entries with
  | [] => none
  | (input, tok, keyword) :: rest =>
      match matchInput input keyword src with
      | some remaining => some (tok, remaining)
      | none => matchTokenMap rest src

/-- Consume a line comment body: everything up to and including the
next newline (the C++ loop advances once more after seeing it). -/
def skipLineComment (src : List Char) (line col : Nat) :
    List Char × Nat × Nat :=
  match src with
  | [] => ([], line, col)
  | c :: rest =>
      let lc := advancePos c line col
      if c = '\n' then (rest, lc.1, lc.2)
      else skipLineComment rest lc.1 lc.2

/-- Consume a block comment body.  Faithful to the C++ loop, which on
matching the closing `*/` still executes one further `advance()`, so
the character immediately after the terminator is consumed as well. -/
def skipBlockComment (src : List Char) (line col : Nat) :
    List Char × Nat × Nat :=
  match src with
  | [] => ([], line, col)
  | c :: rest =>
      if c = '*' then
        match rest with
        | '/' :: rest2 =>
            -- `match("star-slash")` consumed two characters, then the
            -- loop body's advance() consumes one more (if present).
            let lc := advancePos '*' line col
            let lc2 := advancePos '/' lc.1 lc.2
            (match rest2 with
             | [] => ([], lc2.1, lc2.2)
             | d :: rest3 =>
                 let lc3 := advancePos d lc2.1 lc2.2
                 (rest3, lc3.1, lc3.2))
        | _ =>
            let lc := advancePos c line col
            skipBlockComment rest lc.1 lc.2
      else
        let lc := advancePos c line col
        skipBlockComment rest lc.1 lc.2

/-- Consume the longest run of identifier characters. -/
def takeIdent (src : List Char) : List Char × List Char :=
  match src with
  | [] => ([], [])
  | c :: rest =>
      if isIdentChar c then
        let (tk, rem) := takeIdent rest
        (c :: tk, rem)
      else ([], src)

/-- Consume the longest run of digits. -/
def takeDigits (src : List Char) : List Char × List Char :=
  match src with
  | [] => ([], [])
  | c :: rest =>
      if isDigit c then
        let (tk, rem) := takeDigits rest
        (c :: tk, rem)
      else ([], src)

/-- Numeric value of a digit run (the `std::from_chars` call). -/
def digitsToNat (cs : List Char) : Nat :=
  cs.foldl (fun acc c => acc * 10 + (c.toNat - '0'.toNat)) 0

/-- Accumulate a string literal body after the opening quote.
Returns `none` on a bad escape (the C++ `error` path), otherwise the
decoded text, the remaining source and updated counters.  Faithful to
the C++ loop, an unterminated literal still yields a String token. -/
def lexStringBody (src : List Char) (line col : Nat) (buf : List Char) :
    Option (List Char × List Char × Nat × Nat) :=
  match src with
  | [] => some (buf.reverse, [], line, col)
  | c :: rest =>
      let lc := advancePos c line col
      if c = '"' then some (buf.reverse, rest, lc.1, lc.2)
      else if c = '\\' then
        match rest with
        | [] => none
        | esc :: rest2 =>
            let lc2 := advancePos esc lc.1 lc.2
            if esc = 'n' then lexStringBody rest2 lc2.1 lc2.2 ('\n' :: buf)
            else if esc = '\\' then lexStringBody rest2 lc2.1 lc2.2 ('\\' :: buf)
            else none
      else lexStringBody rest lc.1 lc.2 (c :: buf)

/-- Consume leading whitespace (the first inner loop of each round). -/
def skipWhiteSpace (src : List Char) (line col : Nat) :
    List Char × Nat × Nat :=
  match src with
  | c :: rest =>
      if isWhiteSpace c then
        let lc := advancePos c line col
        skipWhiteSpace rest lc.1 lc.2
      else (src, line, col)
  | [] => ([], line, col)

/-- One round of the `for (;;)` loop of `tokenize`, as a fueled
recursion (each round consumes at least one character, so fuel equal
to the source length always suffices).  Returns the accumulated token
list and the C++ function's boolean result. -/
def lexGo (fuel : Nat) (src0 : List Char) (line0 col0 : Nat)
    (acc : List Token) : List Token × Bool :=
  match fuel with
  | 0 => (acc.reverse, false)
  | fuel + 1 =>
    -- consume all whitespace
    let (src, line, col) := skipWhiteSpace src0 line0 col0
    match src with
    | [] => (({ type := .endOfFile, line := line, col := col } :: acc).reverse, true)
    | c :: rest =>
      -- check for line-comments
      if c = '#' then
        let (rem, l2, c2) := skipLineComment src line col
        lexGo fuel rem l2 c2 acc
      else
        match matchInput "//".toList false src with
        | some _ =>
            let (rem, l2, c2) := skipLineComment src line col
            lexGo fuel rem l2 c2 acc
        | none =>
        -- check for block-comments
        match matchInput "/*".toList false src with
        | some rem0 =>
            let lc := advancePosList "/*".toList line col
            let (rem, l2, c2) := skipBlockComment rem0 lc.1 lc.2
            lexGo fuel rem l2 c2 acc
        | none =>
        -- check static inputs
        match matchTokenMap tokenMap src with
        | some (tok, rem) =>
            let lc := advancePosList (src.take (src.length - rem.length)) line col
            lexGo fuel rem lc.1 lc.2 ({ type := tok, line := line, col := col } :: acc)
        | none =>
        -- identifier (keywords will have been matched previously)
        if isIdentStartChar c then
          let (ident, rem) := takeIdent src
          let lc := advancePosList ident line col
          lexGo fuel rem lc.1 lc.2
            ({ type := .identifier, line := line, col := col,
               dataString := String.mk ident } :: acc)
        else
        -- number
        if c = '-' || isDigit c then
          let isNegative := c = '-'
          let (digits, rem) := takeDigits rest
          -- only a negative sign is not a complete number
          if isNegative && digits.isEmpty then
            (({ type := .unknown, line := line, col := col } :: acc).reverse, false)
          else
            let body := if isNegative then digits else c :: digits
            let value : Int :=
              if isNegative then -(digitsToNat digits : Int) else digitsToNat body
            let lc := advancePosList (c :: digits) line col
            lexGo fuel rem lc.1 lc.2
              ({ type := .number, line := line, col := col,
                 dataNumber := value } :: acc)
        else
        -- string
        if c = '"' then
          let lc := advancePos c line col
          match lexStringBody rest lc.1 lc.2 [] with
          | some (text, rem, l2, c2) =>
              lexGo fuel rem l2 c2
                ({ type := .string, line := line, col := col,
                   dataString := String.mk text } :: acc)
          | none =>
              (({ type := .unknown, line := line, col := col } :: acc).reverse, false)
        else
          -- unknown input
          (({ type := .unknown, line := line, col := col } :: acc).reverse, false)

/-- `tokenize` from lexer.cc.  Fuel one larger than the source length
is always enough because every loop round consumes a character. -/
def tokenize (source : String) : List Token × Bool :=
  lexGo (source.length * 2 + 2) source.toList 1 1 []

/-! ## Schema data model used by validate.cc and json.cc

These two translation units use the later schema revision (with
`TypeAggregate`, a `refType`/`generics` slot on the base `Type`, and a
`parent` link on `Namespace`); that revision of schema.hh is not in
the tree, so the structures below are reconstructed from every access
validate.cc and json.cc perform.  Pointers into the `Context` arenas
become `Nat` indices into a `JArena`. -/

namespace JS

structure JLoc where
  filename : String := ""
  startLine : Int := 0
  startCol : Int := 0
  endLine : Int := 0
  endCol : Int := 0
deriving DecidableEq, Repr

/-- `Type::Kind` as serialized by json.cc (its switch lists the full
closed set of this revision). -/
inductive JKind where
  | simple
  | attr
  | generic
  | specialized
  | enum
  | alias
  | struct
  | union
  | typeId
  | array
  | pointer
deriving DecidableEq, Repr

/-- `schema::Value`: the resolved literal sum.  A `Type const*` is a
type index; an `EnumItem const*` is (owning enum type index, item
index). -/
inductive JValue where
  | vnull
  | vbool (b : Bool)
  | vint (i : Int)
  | vstr (s : String)
  | vtype (t : Nat)
  | venum (t : Nat) (item : Nat)
  | vlist (elems : List JValue)

structure JAnnotation where
  typeIdx : Nat := 0
  location : JLoc := {}
  args : List JValue := []

structure JField where
  name : String := ""
  typeIdx : Nat := 0
  defaultValue : Option JValue := none
  annotations : List JAnnotation := []
  location : JLoc := {}

structure JEnumItem where
  name : String := ""
  value : Int := 0
deriving DecidableEq, Repr

/-- `schema::Type` flattened over the base and the `TypeAggregate` /
`TypeEnum` subclasses (the aggregate base type lives in `refType`). -/
structure JType where
  name : String := ""
  qualifiedName : String := ""
  scope : Nat := 0
  kind : JKind := .simple
  annotations : List JAnnotation := []
  location : JLoc := {}
  refType : Option Nat := none
  generics : List Nat := []
  fields : List JField := []
  items : List JEnumItem := []

structure JNamespace where
  name : String := ""
  qualifiedName : String := ""
  owner : Nat := 0
  parent : Nat := 0
  types : List Nat := []
  constants : List Nat := []
  namespaces : List Nat := []

structure JConstant where
  name : String := ""
  qualifiedName : String := ""
  scope : Nat := 0
  typeIdx : Nat := 0
  value : JValue := .vnull
  annotations : List JAnnotation := []
  location : JLoc := {}

structure JModule where
  name : String := ""
  location : JLoc := {}
  root : Nat := 0
  imports : List Nat := []
  types : List Nat := []
  constants : List Nat := []
  namespaces : List Nat := []
  annotations : List JAnnotation := []

structure JArena where
  modules : List JModule := []
  namespaces : List JNamespace := []
  types : List JType := []
  constants : List JConstant := []

def JArena.mod (a : JArena) (i : Nat) : JModule := a.modules.getD i {}
def JArena.ns (a : JArena) (i : Nat) : JNamespace := a.namespaces.getD i {}
def JArena.type (a : JArena) (i : Nat) : JType := a.types.getD i {}
def JArena.constant (a : JArena) (i : Nat) : JConstant := a.constants.getD i {}

end JS

/-! ## JSON documents (`nlohmann::ordered_json`)

An object preserves key insertion order; `j[key] = v` overwrites in
place when the key exists and appends otherwise; `push_back` on a
moved-from (null) value turns it into a one-element array. -/

inductive Json where
  | null
  | jb (b : Bool)
  | ji (i : Int)
  | js (s : String)
  | arr (elems : List Json)
  | obj (entries : List (String × Json))

def objSet (entries : List (String × Json)) (key : String) (v : Json) :
    List (String × Json) :=
  match entries with
  | [] => [(key, v)]
  | (k, w) :: rest =>
      if k = key then (k, v) :: rest else (k, w) :: objSet rest key v

/-- `j[key] = v` on an object. -/
def Json.set (j : Json) (key : String) (v : Json) : Json :=
  match j with
  | .obj entries => .obj (objSet entries key v)
  | _ => .obj [(key, v)]

def objGet (entries : List (String × Json)) (key : String) : Option Json :=
  match entries with
  | [] => none
  | (k, w) :: rest => if k = key then some w else objGet rest key

def Json.lookup (j : Json) (key : String) : Option Json :=
  match j with
  | .obj entries => objGet entries key
  | _ => none

def Json.keys (j : Json) : List String :=
  match j with
  | .obj entries => entries.map (·.1)
  | _ => []

/-- `push_back`: appends on an array, and turns a null (for instance
moved-from) value into a singleton array. -/
def Json.push (j : Json) (v : Json) : Json :=
  match j with
  | .arr elems => .arr (elems ++ [v])
  | .null => .arr [v]
  | _ => j

namespace JS

/-- `to_json(JsonT&, Location const&)` from json.cc. -/
def toJsonLocation (loc : JLoc) : Json :=
  let j := Json.obj []
  let j := j.set "filename" (.js loc.filename)
  let j := if loc.startLine > 0 then j.set "line" (.ji loc.startLine) else j
  let j := if loc.startCol ≠ 0 then j.set "column" (.ji loc.startCol) else j
  let j :=
    if loc.endLine > 0 ∧ loc.endLine ≠ loc.startLine then
      j.set "lineEnd" (.ji loc.endLine)
    else j
  if loc.endLine ≥ loc.startLine ∧ loc.endCol ≠ loc.startCol then
    j.set "columnEnd" (.ji loc.endCol)
  else j

/-- `to_json(JsonT&, Value const&)` from json.cc. -/
def toJsonValue (a : JArena) (v : JValue) : Json :=
  match v with
  | .vnull => .null
  | .vbool b => .jb b
  | .vint i => .ji i
  | .vstr s => .js s
  | .vtype t =>
      Json.obj [("kind", .js "typename"), ("type", .js (a.type t).qualifiedName)]
  | .venum t item =>
      let it := (a.type t).items.getD item {}
      Json.obj [("kind", .js "enum"), ("type", .js (a.type t).name),
                ("name", .js it.name), ("value", .ji it.value)]
  | .vlist elems => .arr (elems.attach.map fun e => toJsonValue a e.1)
termination_by sizeOf v
decreasing_by
  have := List.sizeOf_lt_of_mem e.2
  simp only [JValue.vlist.sizeOf_spec]
  omega

/-- `to_json(JsonT&, Annotation const&)` from json.cc: argument values
keyed by the attribute field names, positionally. -/
def toJsonAnno (a : JArena) (anno : JAnnotation) : Json :=
  let attrType := a.type anno.typeIdx
  let args :=
    (List.range anno.args.length).foldl
      (fun (j : Json) index =>
        j.set (attrType.fields.getD index {}).name
          (toJsonValue a (anno.args.getD index .vnull)))
      (Json.obj [])
  Json.obj [("type", .js attrType.qualifiedName),
            ("location", toJsonLocation anno.location),
            ("args", args)]

def toJsonAnnoList (a : JArena) (annos : List JAnnotation) : Json :=
  .arr (annos.map (toJsonAnno a))

/-- `to_json(JsonT&, Type::Kind)` from json.cc. -/
def toJsonKind (k : JKind) : Json :=
  match k with
  | .simple => .js "simple"
  | .attr => .js "attribute"
  | .generic => .js "generic"
  | .specialized => .js "specialized"
  | .enum => .js "enum"
  | .alias => .js "alias"
  | .struct => .js "struct"
  | .union => .js "union"
  | .typeId => .js "typename"
  | .array => .js "array"
  | .pointer => .js "pointer"

/-- `to_json(JsonT&, Type const&)` from json.cc. -/
def toJsonType (a : JArena) (t : JType) : Json :=
  let j := Json.obj []
  let j := j.set "name" (.js t.name)
  let j := j.set "qualified" (.js t.qualifiedName)
  let j := j.set "module" (.js (a.mod (a.ns t.scope).owner).name)
  let j :=
    if (a.ns t.scope).name ≠ "" then
      j.set "namespace" (.js (a.ns t.scope).qualifiedName)
    else j
  let j := j.set "kind" (toJsonKind t.kind)
  let j := j.set "annotations" (toJsonAnnoList a t.annotations)
  let j :=
    if t.kind = .enum then
      let names := Json.arr (t.items.map fun it => .js it.name)
      let values :=
        t.items.foldl (fun (vj : Json) it => vj.set it.name (.ji it.value))
          (Json.obj [])
      (j.set "names" names).set "values" values
    else if t.kind = .struct ∨ t.kind = .union ∨ t.kind = .attr then
      let j :=
        match t.refType with
        | some base => j.set "base" (.js (a.type base).qualifiedName)
        | none => j
      let j :=
        if t.generics ≠ [] then
          j.set "generics"
            (.arr (t.generics.map fun g => .js (a.type g).name))
        else j
      let fieldsJson :=
        t.fields.foldl
          (fun (fj : Json) f =>
            let fieldJson := Json.obj []
            let fieldJson := fieldJson.set "name" (.js f.name)
            let fieldJson := fieldJson.set "type" (.js (a.type f.typeIdx).qualifiedName)
            let fieldJson :=
              match f.defaultValue with
              | some d => fieldJson.set "default" (toJsonValue a d)
              | none => fieldJson
            let fieldJson := fieldJson.set "annotations" (toJsonAnnoList a f.annotations)
            let fieldJson := fieldJson.set "location" (toJsonLocation f.location)
            fj.set f.name fieldJson)
          (Json.obj [])
      let order := Json.arr (t.fields.map fun f => .js f.name)
      (j.set "order" order).set "fields" fieldsJson
    else if t.kind = .array ∨ t.kind = .pointer ∨ t.kind = .alias then
      match t.refType with
      | some r => j.set "refType" (.js (a.type r).qualifiedName)
      | none => j
    else if t.kind = .specialized then
      let j := j.set "refType" (.js (a.type (t.refType.getD 0)).qualifiedName)
      j.set "typeParams" (.arr (t.generics.map fun p => .js (a.type p).qualifiedName))
    else j
  j.set "location" (toJsonLocation t.location)

/-- `to_json(JsonT&, Constant const&)` from json.cc. -/
def toJsonConstant (a : JArena) (c : JConstant) : Json :=
  let j := Json.obj []
  let j := j.set "name" (.js c.name)
  let j := j.set "qualified" (.js c.qualifiedName)
  let j := j.set "module" (.js (a.mod (a.ns c.scope).owner).name)
  let j :=
    if (a.ns c.scope).name ≠ "" then
      j.set "namespace" (.js (a.ns c.scope).qualifiedName)
    else j
  let j := j.set "type" (.js (a.type c.typeIdx).name)
  let j := j.set "value" (toJsonValue a c.value)
  let j := j.set "annotations" (toJsonAnnoList a c.annotations)
  j.set "location" (toJsonLocation c.location)

/-- `to_json(JsonT&, Namespace const&)` from json.cc.  The constants
loop pushes each qualified name into `types_json` — which was already
moved into the object — rather than into `constants_json`, so the
serialized "constants" array is always the untouched empty array; the
pushes accumulate in a discarded moved-from value.  The embedding
keeps the discarded value to mirror the source. -/
def toJsonNamespace (a : JArena) (ns : JNamespace) : Json :=
  let j := Json.obj []
  let j := j.set "name" (.js ns.name)
  let j := j.set "qualified" (.js ns.qualifiedName)
  let j := j.set "module" (.js (a.mod ns.owner).name)
  let j :=
    if (a.ns ns.parent).name ≠ "" then
      j.set "namespace" (.js (a.ns ns.parent).qualifiedName)
    else j
  let typesJson := Json.arr (ns.types.map fun t => .js (a.type t).qualifiedName)
  let j := j.set "types" typesJson
  let movedTypesJson := Json.null
  let constantsJson := Json.arr []
  let discarded :=
    ns.constants.foldl
      (fun (tj : Json) c => tj.push (.js (a.constant c).qualifiedName))
      movedTypesJson
  let j := j.set "constants" constantsJson
  let _ := discarded
  j.set "namespaces"
    (.arr (ns.namespaces.map fun s => .js (a.ns s).qualifiedName))

/-! ### Validator (validate.cc) and driver exit codes (main.cc)

Diagnostics are modelled structurally: severity, location, and the
message text (the quote characters the C++ streams around names are
elided from the message strings). -/

inductive VKind where
  | err
  | warn
  | info
deriving DecidableEq, Repr

structure VEntry where
  kind : VKind
  loc : JLoc
  msg : String
deriving DecidableEq, Repr

def lookupLoc (seen : List (String × JLoc)) (key : String) : Option JLoc :=
  match seen with
  | [] => none
  | (k, l) :: rest => if k = key then some l else lookupLoc rest key

/-- `Validator::validate(schema::TypeAggregate const&)`: field names
should be unique; a repeated name logs an error at the duplicate and
an info note at the first declaration.  The `unordered_map::insert`
keeps the first occurrence. -/
def validateAggregate (t : JType) : List VEntry × Bool :=
  let step :=
    t.fields.foldl
      (fun (acc : List (String × JLoc) × List VEntry × Bool) f =>
        let (seen, log, success) := acc
        match lookupLoc seen f.name with
        | some firstLoc =>
            (seen,
             log ++ [⟨.err, f.location,
                       "duplicate field " ++ f.name ++ " in type " ++ t.name⟩,
                     ⟨.info, firstLoc,
                       "first declaration of field " ++ f.name⟩],
             false)
        | none => (seen ++ [(f.name, f.location)], log, success))
      ([], [], true)
  (step.2.1, step.2.2)

/-- `Validator::validate(schema::Type const&)`: only aggregate kinds
are checked. -/
def validateType (t : JType) : List VEntry × Bool :=
  match t.kind with
  | .struct | .attr | .union => validateAggregate t
  | _ => ([], true)

/-- Split a character list at every occurrence of `sep`. -/
def splitOnChar (sep : Char) (cs : List Char) : List (List Char) :=
  match cs with
  | [] => [[]]
  | c :: rest =>
      let parts := splitOnChar sep rest
      if c = sep then [] :: parts
      else
        match parts with
        | [] => [[c]]
        | p :: ps => (c :: p) :: ps

/-- `std::filesystem::path::stem`: last path component without its
final extension. -/
def pathStem (p : String) : String :=
  let base := (splitOnChar '/' p.toList).getLastD []
  let parts := splitOnChar '.' base
  if parts.length ≤ 1 then String.mk base
  else String.mk (List.intercalate ['.'] parts.dropLast)

/-- `Validator::validate(schema::Module const&)`.  Faithful to the
source, the per-type results are merged with `success |=` — a
bitwise-or-assign — so a failed type validation can never turn the
initially-true `success` false. -/
def validateModule (a : JArena) (mi : Nat) : List VEntry × Bool :=
  let m := a.mod mi
  let start : List VEntry × Bool :=
    if m.name = "" then
      ([⟨.err, m.location, "module name is missing"⟩], false)
    else ([], true)
  let start :=
    if pathStem m.location.filename ≠ m.name then
      (start.1 ++ [⟨.warn, m.location,
        "module name " ++ m.name ++ " does not match filename"⟩], start.2)
    else start
  (a.ns m.root).types.foldl
    (fun (acc : List VEntry × Bool) ti =>
      let r := validateType (a.type ti)
      (acc.1 ++ r.1, acc.2 || r.2))
    start

/-- The exit-code logic of `compile(Config&)` in main.cc for a run
with no output file configured (JSON goes to stdout): 2 when
compilation failed, 4 when validation failed, otherwise 0. -/
def compileExitCode (compiled : Bool) (a : JArena) (mi : Nat) : Nat :=
  let valid := compiled && (validateModule a mi).2
  if !compiled then 2
  else if !valid then 4
  else 0

def schemaUrl : String :=
  "https://raw.githubusercontent.com/potatoengine/sapc/master/schema/sap-1.schema.json"

/-- `serializeToJson` from json.cc.  `mi` is the index of the module
being serialized (the C++ compares `scope->owner` against `&mod`). -/
def serializeToJson (a : JArena) (mi : Nat) : Json :=
  let m := a.mod mi
  let doc := Json.obj []
  let doc := doc.set "$schema" (.js schemaUrl)
  let modJson := Json.obj []
  let modJson := modJson.set "name" (.js m.name)
  let modJson := modJson.set "annotations" (toJsonAnnoList a m.annotations)
  let modJson :=
    modJson.set "imports" (.arr (m.imports.map fun i => .js (a.mod i).name))
  let doc := doc.set "module" modJson
  let step :=
    m.types.foldl
      (fun (acc : Json × Json) ti =>
        let t := a.type ti
        let exportsJson :=
          if (a.ns t.scope).owner = mi then
            let isNormal :=
              t.kind ≠ .array ∧ t.kind ≠ .pointer ∧
              t.kind ≠ .generic ∧ t.kind ≠ .specialized
            if isNormal then acc.2.push (.js t.qualifiedName) else acc.2
          else acc.2
        (acc.1.set t.qualifiedName (toJsonType a t), exportsJson))
      (Json.obj [], Json.arr [])
  let doc := doc.set "types" step.1
  let cstep :=
    m.constants.foldl
      (fun (acc : Json × Json) ci =>
        let c := a.constant ci
        let exportsJson :=
          if (a.ns c.scope).owner = mi then acc.2.push (.js c.qualifiedName)
          else acc.2
        (acc.1.set c.qualifiedName (toJsonConstant a c), exportsJson))
      (Json.obj [], Json.arr [])
  let doc := doc.set "constants" cstep.1
  let doc :=
    doc.set "namespaces"
      (m.namespaces.foldl
        (fun (nj : Json) ni =>
          nj.set (a.ns ni).qualifiedName (toJsonNamespace a (a.ns ni)))
        (Json.obj []))
  let exports := Json.obj []
  let exports := exports.set "types" step.2
  let exports := exports.set "constants" cstep.2
  doc.set "exports" exports

end JS

/-! ## Concrete schemas for the validator / serializer claims -/

/-! ## Compiler (compiler.cc)

The schema compiler is translated from compiler.cc.  That translation
unit belongs to an intermediate schema revision (with `TypeAlias`,
`TypeGeneric`, `TypeSpecialized` and a `generics` list on
`TypeStruct`); the matching schema.hh is not in the tree, so the
schema structures are reconstructed from every access compiler.cc
performs, flattened over the class hierarchy.  Arena indices stand in
for `Context`-owned pointers; the mutable `Compiler` object becomes an
explicit `CState`; recursions that walk arena-indexed graphs (imports,
scope chains, the make-available visit) carry fuel, which never
changes a returned value — it only bounds the depth of side-effecting
recursion, and every concrete run below uses ample fuel. -/

structure CPos where
  line : Int := 0
  column : Int := 0
deriving DecidableEq, Repr

/-- `Location` from location.hh (`end` is spelled `stop`). -/
structure CLoc where
  filename : String := ""
  start : CPos := {}
  stop : CPos := {}
deriving DecidableEq, Repr

/-- `Location::merge(Position const&)` from location.cc. -/
def CLoc.mergePos (l : CLoc) (rhs : CPos) : CLoc :=
  if rhs.line = 0 then l
  else
    let l :=
      if l.start.line = 0 ∨ rhs.line < l.start.line then { l with start := rhs }
      else if l.start.line = rhs.line ∧ rhs.column < l.start.column then
        { l with start := { l.start with column := rhs.column } }
      else l
    if l.stop.line = 0 ∨ rhs.line > l.stop.line then { l with stop := rhs }
    else if l.stop.line = rhs.line ∧ rhs.column > l.stop.column then
      { l with stop := { l.stop with column := rhs.column } }
    else l

/-- `Location::merge(Location const&)`. -/
def CLoc.merge (l : CLoc) (rhs : CLoc) : CLoc :=
  (l.mergePos rhs.start).mergePos rhs.stop

/-- The `Location{std::filesystem::absolute(__FILE__), {__LINE__}}`
constant used for compiler-synthesized entities. -/
def builtinLoc : CLoc := { filename := "compiler.cc", start := { line := 1 } }

namespace CAst

structure Identifier where
  id : String := ""
  loc : CLoc := {}
deriving DecidableEq, Repr

/-- `QualifiedId`: non-empty component list; equality and the resolve
cache key use the component texts only. -/
abbrev QualId := List Identifier

/-- `ast::Literal` (location folded into each alternative). -/
inductive Literal where
  | lnull (loc : CLoc)
  | lbool (loc : CLoc) (b : Bool)
  | lint (loc : CLoc) (i : Int)
  | lstr (loc : CLoc) (s : String)
  | lid (loc : CLoc) (qualId : QualId)
  | llist (loc : CLoc) (elems : List Literal)

def Literal.loc : Literal → CLoc
  | .lnull l | .lbool l _ | .lint l _ | .lstr l _ | .lid l _ | .llist l _ => l

structure Annotation where
  name : QualId := []
  args : List Literal := []

/-- `ast::TypeRef` (kind-tagged struct rendered as a sum; the field
holding generic arguments is named `typeParams` as in compiler.cc). -/
inductive TypeRef where
  | name (loc : CLoc) (qualId : QualId)
  | pointer (loc : CLoc) (ref : TypeRef)
  | array (loc : CLoc) (ref : TypeRef) (arraySize : Option Int)
  | generic (loc : CLoc) (ref : TypeRef) (typeParams : List TypeRef)
  | typeName (loc : CLoc)

def TypeRef.loc : TypeRef → CLoc
  | .name l _ | .pointer l _ | .array l _ _ | .generic l _ _ | .typeName l => l

structure Field where
  name : Identifier := {}
  type : TypeRef := .typeName {}
  annotations : List Annotation := []
  init : Option Literal := none

structure Member where
  name : Identifier := {}
  type : TypeRef := .typeName {}
  annotations : List Annotation := []

structure EnumItem where
  name : Identifier := {}
  annotations : List Annotation := []
  value : Int := 0

inductive DeclKind where
  | alias
  | struct
  | union
  | attr
  | enum
  | constant
deriving DecidableEq, Repr

structure CustomTagDecl where
  name : Identifier := {}
  tagKind : DeclKind := .struct
  annotations : List Annotation := []

structure StructDecl where
  name : Identifier := {}
  customTag : String := ""
  baseType : Option TypeRef := none
  fields : List Field := []
  generics : List Identifier := []
  annotations : List Annotation := []

structure AliasDecl where
  name : Identifier := {}
  customTag : String := ""
  targetType : Option TypeRef := none
  annotations : List Annotation := []

structure AttributeDecl where
  name : Identifier := {}
  fields : List Field := []
  annotations : List Annotation := []

structure UnionDecl where
  name : Identifier := {}
  customTag : String := ""
  members : List Member := []
  annotations : List Annotation := []

structure EnumDecl where
  name : Identifier := {}
  customTag : String := ""
  items : List EnumItem := []
  annotations : List Annotation := []

structure ConstantDecl where
  name : Identifier := {}
  customTag : String := ""
  type : TypeRef := .typeName {}
  annotations : List Annotation := []
  value : Literal := .lnull {}

inductive Decl where
  | namespaceDecl (name : Identifier) (decls : List Decl)
  | structDecl (d : StructDecl)
  | aliasDecl (d : AliasDecl)
  | unionDecl (d : UnionDecl)
  | attributeDecl (d : AttributeDecl)
  | enumDecl (d : EnumDecl)
  | constantDecl (d : ConstantDecl)
  | importDecl (target : Identifier)
  | moduleDecl (name : Identifier) (annotations : List Annotation)
  | customTagDecl (d : CustomTagDecl)

structure ModuleUnit where
  name : Identifier := {}
  filename : String := ""
  decls : List Decl := []

end CAst

namespace CS

/-- `schema::Type::Kind` of the compiler.cc revision. -/
inductive TKind where
  | primitive
  | typeId
  | struct
  | union
  | attr
  | enum
  | alias
  | pointer
  | array
  | generic
  | specialized
deriving DecidableEq, Repr

/-- `schema::Value` (location folded into each alternative; an
`EnumItem const*` is (owning enum type index, item position)). -/
inductive SValue where
  | vnull (loc : CLoc)
  | vbool (loc : CLoc) (b : Bool)
  | vint (loc : CLoc) (i : Int)
  | vstr (loc : CLoc) (s : String)
  | vtype (loc : CLoc) (t : Nat)
  | venum (loc : CLoc) (t : Nat) (item : Nat)
  | vlist (loc : CLoc) (elems : List SValue)

structure SAnnotation where
  typeIdx : Option Nat := none
  location : CLoc := {}
  args : List SValue := []

structure SField where
  name : String := ""
  location : CLoc := {}
  typeIdx : Option Nat := none
  defaultValue : Option SValue := none
  annotations : List SAnnotation := []

structure SMember where
  name : String := ""
  location : CLoc := {}
  typeIdx : Option Nat := none
  annotations : List SAnnotation := []

structure SEnumItem where
  name : String := ""
  location : CLoc := {}
  value : Int := 0
  parent : Nat := 0
  annotations : List SAnnotation := []

/-- `schema::Type` flattened over `TypeStruct` / `TypeUnion` /
`TypeAttribute` / `TypeEnum` / `TypeAlias` / `TypePointer` /
`TypeArray` / `TypeGeneric` / `TypeSpecialized`; each builder fills
exactly the slots its C++ subclass has. -/
structure SType where
  name : String := ""
  qualifiedName : String := ""
  location : CLoc := {}
  owner : Nat := 0
  scope : Option Nat := none
  kind : TKind := .primitive
  annotations : List SAnnotation := []
  baseType : Option Nat := none
  fields : List SField := []
  members : List SMember := []
  generics : List Nat := []
  parent : Option Nat := none
  items : List SEnumItem := []
  ref : Option Nat := none
  toIdx : Option Nat := none
  ofIdx : Option Nat := none
  typeParams : List Nat := []

structure SConstant where
  name : String := ""
  qualifiedName : String := ""
  location : CLoc := {}
  owner : Nat := 0
  scope : Option Nat := none
  typeIdx : Option Nat := none
  value : SValue := .vnull {}
  annotations : List SAnnotation := []

structure SNamespace where
  name : String := ""
  qualifiedName : String := ""
  location : CLoc := {}
  owner : Option Nat := none
  scope : Option Nat := none
  types : List Nat := []
  constants : List Nat := []
  namespaces : List Nat := []

structure SModule where
  name : String := ""
  location : CLoc := {}
  root : Nat := 0
  imports : List Nat := []
  types : List Nat := []
  constants : List Nat := []
  namespaces : List Nat := []
  annotations : List SAnnotation := []

/-- The `Resolve` kind-tagged union. -/
inductive CResolve where
  | empty
  | type (t : Nat)
  | constant (c : Nat)
  | namespc (ns : Nat)
  | enumItem (t : Nat) (item : Nat)
deriving DecidableEq, Repr

/-- The per-in-flight-file `State` record. -/
structure FState where
  unit : CAst.ModuleUnit := {}
  modIdx : Nat := 0
  nsStack : List Nat := []
  importedTypes : List Nat := []
  resolveCache : List (List String × CResolve) := []

structure LogEntry where
  isError : Bool := true
  loc : CLoc := {}
  msg : String := ""

/-- The `Compiler` object plus the `Context` arenas and the `Log`.
The namespace stack and the build-state stack keep their top at the
list head. -/
structure CState where
  dependencies : List String := []
  modules : List SModule := []
  types : List SType := []
  constants : List SConstant := []
  namespaces : List SNamespace := []
  stack : List FState := []
  typeIdType : Option Nat := none
  customTagAttr : Option Nat := none
  coreModule : Option Nat := none
  arrayTypeMap : List (Nat × Nat) := []
  pointerTypeMap : List (Nat × Nat) := []
  specializedTypeMap : List (List String × Nat) := []
  moduleMap : List (String × Nat) := []
  customTagMap : List (String × CAst.CustomTagDecl) := []
  log : List LogEntry := []

def CState.getType (st : CState) (i : Nat) : SType := st.types.getD i {}
def CState.getMod (st : CState) (i : Nat) : SModule := st.modules.getD i {}
def CState.getNs (st : CState) (i : Nat) : SNamespace := st.namespaces.getD i {}
def CState.getConstant (st : CState) (i : Nat) : SConstant := st.constants.getD i {}

def CState.updType (st : CState) (i : Nat) (f : SType → SType) : CState :=
  { st with types := st.types.modify f i }
def CState.updMod (st : CState) (i : Nat) (f : SModule → SModule) : CState :=
  { st with modules := st.modules.modify f i }
def CState.updNs (st : CState) (i : Nat) (f : SNamespace → SNamespace) : CState :=
  { st with namespaces := st.namespaces.modify f i }

/-- `state.back()` (the stack top, with a default for an empty stack —
the C++ asserts non-emptiness). -/
def CState.top (st : CState) : FState := st.stack.headD {}

def CState.updTop (st : CState) (f : FState → FState) : CState :=
  match st.stack with
  | [] => st
  | t :: rest => { st with stack := f t :: rest }

def CState.logError (st : CState) (loc : CLoc) (msg : String) : CState :=
  { st with log := st.log ++ [{ isError := true, loc := loc, msg := msg }] }

def CState.logInfo (st : CState) (loc : CLoc) (msg : String) : CState :=
  { st with log := st.log ++ [{ isError := false, loc := loc, msg := msg }] }

def CState.errCount (st : CState) : Nat :=
  (st.log.filter (·.isError)).length

def lookupAssoc {β : Type} (m : List (List String × β)) (k : List String) :
    Option β :=
  match m with
  | [] => none
  | (k0, v) :: rest => if k0 = k then some v else lookupAssoc rest k

def lookupAssocNat {β : Type} (m : List (Nat × β)) (k : Nat) : Option β :=
  match m with
  | [] => none
  | (k0, v) :: rest => if k0 = k then some v else lookupAssocNat rest k

def lookupAssocStr {β : Type} (m : List (String × β)) (k : String) : Option β :=
  match m with
  | [] => none
  | (k0, v) :: rest => if k0 = k then some v else lookupAssocStr rest k

mutual

/-- `Compiler::makeAvailable`: recurse when non-null, return the
argument unchanged. -/
def makeAvailable (fuel : Nat) (st : CState) (t : Option Nat) :
    CState × Option Nat :=
  match fuel with
  | 0 => (st, t)
  | fuel + 1 =>
    match t with
    | some i => (maRecurseType fuel st i, t)
    | none => (st, t)

/-- `Compiler::makeAvailableRecurse(schema::Type const&)`: skip types
the current module owns, record the visit, append to the module type
list, then visit the annotations and the kind-specific components. -/
def maRecurseType (fuel : Nat) (st : CState) (i : Nat) : CState :=
  match fuel with
  | 0 => st
  | fuel + 1 =>
    let mod := st.top.modIdx
    let ty := st.getType i
    if ty.owner = mod then st
    else if i ∈ st.top.importedTypes then st
    else
      let st := st.updTop fun fs =>
        { fs with importedTypes := fs.importedTypes ++ [i] }
      let st := st.updMod mod fun m => { m with types := m.types ++ [i] }
      let st := ty.annotations.foldl (fun st a => maRecurseAnno fuel st a) st
      match ty.kind with
      | .struct =>
          let st := (makeAvailable fuel st ty.baseType).1
          ty.fields.foldl (fun st f => maRecurseField fuel st f) st
      | .attr => ty.fields.foldl (fun st f => maRecurseField fuel st f) st
      | .union => ty.members.foldl (fun st m => maRecurseMember fuel st m) st
      | .alias => (makeAvailable fuel st ty.ref).1
      | .pointer => (makeAvailable fuel st ty.toIdx).1
      | .array => (makeAvailable fuel st ty.ofIdx).1
      | .specialized =>
          let st := (makeAvailable fuel st ty.ref).1
          ty.typeParams.foldl (fun st p => maRecurseType fuel st p) st
      | _ => st

/-- `Compiler::makeAvailableRecurse(schema::Field const&)`. -/
def maRecurseField (fuel : Nat) (st : CState) (f : SField) : CState :=
  match fuel with
  | 0 => st
  | fuel + 1 =>
    let st :=
      match f.typeIdx with
      | some t => maRecurseType fuel st t
      | none => st
    let st :=
      match f.defaultValue with
      | some v => maRecurseValue fuel st v
      | none => st
    f.annotations.foldl (fun st a => maRecurseAnno fuel st a) st

/-- `Compiler::makeAvailableRecurse(schema::Member const&)`. -/
def maRecurseMember (fuel : Nat) (st : CState) (m : SMember) : CState :=
  match fuel with
  | 0 => st
  | fuel + 1 =>
    let st :=
      match m.typeIdx with
      | some t => maRecurseType fuel st t
      | none => st
    m.annotations.foldl (fun st a => maRecurseAnno fuel st a) st

/-- `Compiler::makeAvailableRecurse(schema::Annotation const&)`. -/
def maRecurseAnno (fuel : Nat) (st : CState) (a : SAnnotation) : CState :=
  match fuel with
  | 0 => st
  | fuel + 1 =>
    let st :=
      match a.typeIdx with
      | some t => maRecurseType fuel st t
      | none => st
    a.args.foldl (fun st v => maRecurseValue fuel st v) st

/-- `Compiler::makeAvailableRecurse(schema::Value const&)`: only a
type-valued alternative is visited (lists are not traversed). -/
def maRecurseValue (fuel : Nat) (st : CState) (v : SValue) : CState :=
  match fuel with
  | 0 => st
  | fuel + 1 =>
    match v with
    | .vtype _ t => (makeAvailable fuel st (some t)).1
    | _ => st

end

/-- `Compiler::findLocal(QualIdSpan, schema::Type const*)`: a type's
local names are its enum items and its generic type parameters; the
function is effect-free. -/
def findLocalType (st : CState) (qualId : CAst.QualId) (scope : Nat) :
    CResolve :=
  -- "We don't have nested types yet"
  if qualId.length ≠ 1 then .empty
  else
    let front := (qualId.headD {}).id
    let ty := st.getType scope
    if ty.kind = .enum then
      match (List.range ty.items.length).find?
          (fun j => (ty.items.getD j {}).name = front) with
      | some j => .enumItem scope j
      | none => .empty
    else if ty.kind = .struct then
      match ty.generics.find? (fun g => (st.getType g).name = front) with
      | some g => .type g
      | none => .empty
    else .empty

mutual

/-- `Compiler::findLocal(QualIdSpan, schema::Namespace const*)`. -/
def findLocalNs (fuel : Nat) (st : CState) (qualId : CAst.QualId)
    (scope : Nat) : CState × CResolve :=
  match fuel with
  | 0 => (st, .empty)
  | fuel + 1 =>
    let ns := st.getNs scope
    let front := (qualId.headD {}).id
    if qualId.length = 1 then
      match ns.namespaces.find? (fun n => (st.getNs n).name = front) with
      | some n => (st, .namespc n)
      | none =>
        match ns.types.find? (fun t => (st.getType t).name = front) with
        | some t =>
            let st := (makeAvailable fuel st (some t)).1
            (st, .type t)
        | none =>
          match ns.constants.find?
              (fun c => (st.getConstant c).name = front) with
          | some c => (st, .constant c)
          | none => (st, .empty)
    else
      let r := findLocalNsChildren fuel st qualId ns.namespaces front
      match r with
      | (st, .empty) => findLocalNsTypes fuel st qualId ns.types front
      | hit => hit

/-- The child-namespace scan of the multi-component case (continues
past children whose recursive lookup comes back empty). -/
def findLocalNsChildren (fuel : Nat) (st : CState) (qualId : CAst.QualId)
    (children : List Nat) (front : String) : CState × CResolve :=
  match fuel with
  | 0 => (st, .empty)
  | fuel + 1 =>
    match children with
    | [] => (st, .empty)
    | n :: rest =>
        if (st.getNs n).name = front then
          match findLocalNs fuel st (qualId.drop 1) n with
          | (st, .empty) => findLocalNsChildren fuel st qualId rest front
          | hit => hit
        else findLocalNsChildren fuel st qualId rest front

/-- The scope-type scan of the multi-component case; a hit calls
`makeAvailable` on the scope type before returning. -/
def findLocalNsTypes (fuel : Nat) (st : CState) (qualId : CAst.QualId)
    (typeIdxs : List Nat) (front : String) : CState × CResolve :=
  match fuel with
  | 0 => (st, .empty)
  | fuel + 1 =>
    match typeIdxs with
    | [] => (st, .empty)
    | t :: rest =>
        if (st.getType t).name = front then
          match findLocalType st (qualId.drop 1) t with
          | .empty => findLocalNsTypes fuel st qualId rest front
          | rs =>
              let st := (makeAvailable fuel st (some t)).1
              (st, rs)
        else findLocalNsTypes fuel st qualId rest front

/-- `Compiler::findGlobal(QualIdSpan, schema::Namespace const*)`. -/
def findGlobalNs (fuel : Nat) (st : CState) (qualId : CAst.QualId)
    (scope : Nat) : CState × CResolve :=
  match fuel with
  | 0 => (st, .empty)
  | fuel + 1 =>
    match findLocalNs fuel st qualId scope with
    | (st, .empty) =>
        (match (st.getNs scope).scope with
         | some parent => findGlobalNs fuel st qualId parent
         | none =>
            match (st.getNs scope).owner with
            | some m => findGlobalMod fuel st qualId m
            | none => (st, .empty))
    | hit => hit

/-- `Compiler::findGlobal(QualIdSpan, schema::Type const*)`. -/
def findGlobalType (fuel : Nat) (st : CState) (qualId : CAst.QualId)
    (scope : Nat) : CState × CResolve :=
  match fuel with
  | 0 => (st, .empty)
  | fuel + 1 =>
    match findLocalType st qualId scope with
    | .empty =>
        (match (st.getType scope).scope with
         | some ns => findGlobalNs fuel st qualId ns
         | none => findGlobalMod fuel st qualId (st.getType scope).owner)
    | rs => (st, rs)

/-- `Compiler::findGlobal(QualIdSpan, schema::Module const*)`: the
module root, then each import's root in declaration order, then the
core module. -/
def findGlobalMod (fuel : Nat) (st : CState) (qualId : CAst.QualId)
    (m : Nat) : CState × CResolve :=
  match fuel with
  | 0 => (st, .empty)
  | fuel + 1 =>
    match findLocalNs fuel st qualId (st.getMod m).root with
    | (st, .empty) =>
        (match findGlobalImports fuel st qualId (st.getMod m).imports with
         | (st, .empty) =>
            (match st.coreModule with
             | some core => findLocalNs fuel st qualId (st.getMod core).root
             | none => (st, .empty))
         | hit => hit)
    | hit => hit

/-- The import scan of the module lookup. -/
def findGlobalImports (fuel : Nat) (st : CState) (qualId : CAst.QualId)
    (imps : List Nat) : CState × CResolve :=
  match fuel with
  | 0 => (st, .empty)
  | fuel + 1 =>
    match imps with
    | [] => (st, .empty)
    | i :: rest =>
        match findLocalNs fuel st qualId (st.getMod i).root with
        | (st, .empty) => findGlobalImports fuel st qualId rest
        | hit => hit

end

/-- `Compiler::resolve`: consult the per-file cache first; on a miss
run the scope walk, cache a non-empty result, and make a resolved type
available in the current module. -/
def resolve (fuel : Nat) (st : CState) (qualId : CAst.QualId)
    (scope : Option Nat) : CState × CResolve :=
  let key := qualId.map (·.id)
  match lookupAssoc st.top.resolveCache key with
  | some rs => (st, rs)
  | none =>
    let r :=
      match scope with
      | some t => findGlobalType fuel st qualId t
      | none => findGlobalMod fuel st qualId st.top.modIdx
    let st := r.1
    let rs := r.2
    let st :=
      if rs ≠ .empty then
        st.updTop fun fs => { fs with resolveCache := (key, rs) :: fs.resolveCache }
      else st
    match rs with
    | .type t =>
        let st := (makeAvailable fuel st (some t)).1
        (st, .type t)
    | _ => (st, rs)

/-- `Compiler::requireType(QualIdSpan, ...)`. -/
def requireTypeQ (fuel : Nat) (st : CState) (qualId : CAst.QualId)
    (scope : Option Nat) : CState × Option Nat :=
  match resolve fuel st qualId scope with
  | (st, .empty) => (st, none)
  | (st, .type t) => (st, some t)
  | (st, _) =>
      (st.logError (qualId.headD {}).loc "does not name a type", none)

/-- `Compiler::createArrayType`: interned by the element identity
alone (the map key is the `of` pointer; no size takes part and the
array type stores none). -/
def createArrayType (st : CState) (of : Nat) (loc : CLoc) : CState × Nat :=
  match lookupAssocNat st.arrayTypeMap of with
  | some arr => (st, arr)
  | none =>
      let top := st.top
      let fresh := st.types.length
      let arr : SType :=
        { name := (st.getType of).name ++ "[]",
          qualifiedName := (st.getType of).qualifiedName ++ "[]",
          ofIdx := some of,
          kind := .array,
          owner := top.modIdx,
          scope := (st.getType of).scope,
          location := loc }
      let st := { st with types := st.types ++ [arr] }
      let st := st.updMod top.modIdx fun m => { m with types := m.types ++ [fresh] }
      let st := { st with arrayTypeMap := st.arrayTypeMap ++ [(of, fresh)] }
      (st, fresh)

/-- `Compiler::createPointerType`: interned by the pointee identity
(the C++ parameter is named `to`, a reserved word here). -/
def createPointerType (st : CState) (pointee : Nat) (loc : CLoc) : CState × Nat :=
  match lookupAssocNat st.pointerTypeMap pointee with
  | some ptr => (st, ptr)
  | none =>
      let top := st.top
      let fresh := st.types.length
      let ptr : SType :=
        { name := (st.getType pointee).name ++ "*",
          qualifiedName := (st.getType pointee).qualifiedName ++ "*",
          toIdx := some pointee,
          kind := .pointer,
          owner := top.modIdx,
          scope := (st.getType pointee).scope,
          location := loc }
      let st := { st with types := st.types ++ [ptr] }
      let st := st.updMod top.modIdx fun m => { m with types := m.types ++ [fresh] }
      let st := { st with pointerTypeMap := st.pointerTypeMap ++ [(pointee, fresh)] }
      (st, fresh)

/-- The data the specialization hash is computed from: the generic's
qualified name followed by each argument's qualified name, in order.
The association list keyed by this sequence models the
`unordered_map<size_t, ...>` keyed by the combined hash (hash
collisions are not modelled). -/
def specKey (st : CState) (gen : Nat) (typeParams : List Nat) : List String :=
  (st.getType gen).qualifiedName :: typeParams.map fun p => (st.getType p).qualifiedName

/-- `Compiler::createSpecializedType`: interned by the qualified-name
sequence of the generic and the arguments (the C++ computes `specHash`
once at entry).  The display-name suffix concatenates the argument
qualified names with no separator, as the source does. -/
def createSpecializedType (st : CState) (gen : Nat) (typeParams : List Nat)
    (loc : CLoc) : CState × Nat :=
  let key := specKey st gen typeParams
  match lookupAssoc st.specializedTypeMap key with
  | some spec => (st, spec)
  | none =>
      let top := st.top
      let fresh := st.types.length
      let genName :=
        "<" ++ String.join (typeParams.map fun p => (st.getType p).qualifiedName) ++ ">"
      let spec : SType :=
        { name := (st.getType gen).name ++ genName,
          qualifiedName := (st.getType gen).qualifiedName ++ genName,
          ref := some gen,
          kind := .specialized,
          owner := top.modIdx,
          scope := (st.getType gen).scope,
          location := loc,
          typeParams := typeParams }
      let st := { st with types := st.types ++ [spec] }
      let st := st.updMod top.modIdx fun m => { m with types := m.types ++ [fresh] }
      let st := { st with
        specializedTypeMap := st.specializedTypeMap ++ [(key, fresh)] }
      (st, fresh)

mutual

/-- `Compiler::resolveType`: the static array size of an array
reference is dropped before interning, faithful to the source. -/
def resolveType (fuel : Nat) (st : CState) (ref : CAst.TypeRef)
    (scope : Option Nat) : CState × Option Nat :=
  match fuel with
  | 0 => (st, none)
  | fuel + 1 =>
    match ref with
    | .typeName _ => makeAvailable fuel st st.typeIdType
    | .name _ q =>
        (match resolve fuel st q scope with
         | (st, .type t) => makeAvailable fuel st (some t)
         | (st, _) => (st, none))
    | .array loc r _ =>
        (match resolveType fuel st r scope with
         | (st, some t) =>
             let r := createArrayType st t loc
             (r.1, some r.2)
         | (st, none) => (st, none))
    | .pointer loc r =>
        (match resolveType fuel st r scope with
         | (st, some t) =>
             let r := createPointerType st t loc
             (r.1, some r.2)
         | (st, none) => (st, none))
    | .generic loc r params =>
        (match resolveType fuel st r scope with
         | (st, some t) =>
             (match resolveTypeParams fuel st params scope with
              | (st, some typeParams) =>
                  let r := createSpecializedType st t typeParams loc
                  (r.1, some r.2)
              | (st, none) => (st, none))
         | (st, none) => (st, none))

/-- The argument loop of the `Generic` case (`requireType` on each
argument, failing the whole reference on the first failure). -/
def resolveTypeParams (fuel : Nat) (st : CState) (params : List CAst.TypeRef)
    (scope : Option Nat) : CState × Option (List Nat) :=
  match fuel with
  | 0 => (st, none)
  | fuel + 1 =>
    match params with
    | [] => (st, some [])
    | p :: rest =>
        match requireTypeRef fuel st p scope with
        | (st, some t) =>
            (match resolveTypeParams fuel st rest scope with
             | (st, some ts) => (st, some (t :: ts))
             | (st, none) => (st, none))
        | (st, none) => (st, none)

/-- `Compiler::requireType(ast::TypeRef const&, ...)`. -/
def requireTypeRef (fuel : Nat) (st : CState) (ref : CAst.TypeRef)
    (scope : Option Nat) : CState × Option Nat :=
  match fuel with
  | 0 => (st, none)
  | fuel + 1 =>
    match resolveType fuel st ref scope with
    | (st, some t) => (st, some t)
    | (st, none) => (st.logError ref.loc "type not found", none)

end

mutual

/-- `Compiler::translate(ast::Literal const&)`. -/
def translateLit (fuel : Nat) (st : CState) (lit : CAst.Literal) :
    CState × SValue :=
  match fuel with
  | 0 => (st, .vnull {})
  | fuel + 1 =>
    match lit with
    | .lnull loc => (st, .vnull loc)
    | .lbool loc b => (st, .vbool loc b)
    | .lint loc i => (st, .vint loc i)
    | .lstr loc s => (st, .vstr loc s)
    | .lid loc q =>
        (match resolve fuel st q none with
         | (st, .empty) => (st.logError loc "not found", .vnull loc)
         | (st, .type t) => (st, .vtype loc t)
         | (st, .enumItem t j) => (st, .venum loc t j)
         | (st, .constant c) => (st, (st.getConstant c).value)
         | (st, .namespc n) =>
             let st := st.logError loc
               "names a namespace, must name a type, constant, or enumeration"
             let st := st.logInfo (st.getNs n).location "namespace declared here"
             (st, .vnull loc))
    | .llist loc elems =>
        match translateLitList fuel st elems with
        | (st, vs) => (st, .vlist loc vs)

/-- The element loop of the list-literal case. -/
def translateLitList (fuel : Nat) (st : CState) (elems : List CAst.Literal) :
    CState × List SValue :=
  match fuel with
  | 0 => (st, [])
  | fuel + 1 =>
    match elems with
    | [] => (st, [])
    | e :: rest =>
        match translateLit fuel st e with
        | (st, v) =>
            match translateLitList fuel st rest with
            | (st, vs) => (st, v :: vs)

end

/-- The field-binding loop of `Compiler::translate(ast::Annotation
const&)`: positional arguments in order, then field defaults, then a
logged error plus a default-constructed value for a missing argument
without a default.  `loc` is the annotation's location the error is
reported at. -/
def bindArgs (fuel : Nat) (st : CState) (loc : CLoc)
    (args : List CAst.Literal) (flds : List SField) : CState × List SValue :=
  match flds with
  | [] => (st, [])
  | f :: rest =>
      match args with
      | a :: args' =>
          (match translateLit fuel st a with
           | (st, v) =>
               match bindArgs fuel st loc args' rest with
               | (st, vs) => (st, v :: vs))
      | [] =>
          match f.defaultValue with
          | some d =>
              (match bindArgs fuel st loc [] rest with
               | (st, vs) => (st, d :: vs))
          | none =>
              let st := st.logError loc ("missing parameter " ++ f.name)
              match bindArgs fuel st loc [] rest with
              | (st, vs) => (st, .vnull {} :: vs)

/-- `Compiler::translate(ast::Annotation const&)`. -/
def translateAnno (fuel : Nat) (st : CState) (anno : CAst.Annotation) :
    CState × SAnnotation :=
  let loc := ((anno.name.headD {}).loc).merge ((anno.name.getLastD {}).loc)
  match requireTypeQ fuel st anno.name none with
  | (st, none) =>
      (st.logError loc "attribute not found",
       { typeIdx := none, location := loc })
  | (st, some t) =>
      if (st.getType t).kind ≠ .attr then
        let st := st.logError loc "annotation type is not an attribute"
        let st := st.logInfo (st.getType t).location
          ((st.getType t).name ++ ": type declared here")
        (st, { typeIdx := some t, location := loc })
      else
        let attrFields := (st.getType t).fields
        if anno.args.length > attrFields.length then
          let st := st.logError loc
            ("too many arguments for attribute " ++ (st.getType t).name)
          let st := st.logInfo (st.getType t).location
            ((st.getType t).name ++ ": attribute declared here")
          (st, { typeIdx := some t, location := loc })
        else
          match bindArgs fuel st loc anno.args attrFields with
          | (st, vs) => (st, { typeIdx := some t, location := loc, args := vs })

/-- `Compiler::translate(std::vector<Annotation>&, ...)`: translate
each annotation and append. -/
def translateAnnoList (fuel : Nat) (st : CState)
    (annos : List CAst.Annotation) : CState × List SAnnotation :=
  match annos with
  | [] => (st, [])
  | a :: rest =>
      match translateAnno fuel st a with
      | (st, sa) =>
          match translateAnnoList fuel st rest with
          | (st, sas) => (st, sa :: sas)

/-- `Compiler::qualify`. -/
def qualify (st : CState) (name : String) : String :=
  let scope := st.getNs (st.top.nsStack.headD 0)
  if scope.name = "" then name
  else scope.qualifiedName ++ "." ++ name

/-- `Compiler::createCoreModule`: run once; defines the `$sapc` module
with the five primitives, the `$sapc.typeid` type and the
`$sapc.customtag` attribute (whose single field `tag` takes the first
core type, string).  The core root namespace's owner is left unset, as
in the source. -/
def createCoreModule (st : CState) : CState :=
  match st.coreModule with
  | some _ => st
  | none =>
      let nsFresh := st.namespaces.length
      let modFresh := st.modules.length
      let st := { st with namespaces := st.namespaces ++ [({} : SNamespace)] }
      let st := { st with
        modules := st.modules ++ [({ name := "$sapc", root := nsFresh } : SModule)],
        coreModule := some modFresh }
      let addBuiltin := fun (st : CState) (nm : String) (k : TKind) =>
        let f := st.types.length
        let st := { st with types := st.types ++ [({
          name := nm, qualifiedName := nm, kind := k, owner := modFresh,
          scope := some nsFresh, location := builtinLoc } : SType)] }
        let st := st.updMod modFresh fun m => { m with types := m.types ++ [f] }
        st.updNs nsFresh fun n => { n with types := n.types ++ [f] }
      -- the first type must be string
      let st := ["string", "bool", "byte", "int", "float"].foldl
        (fun st nm => addBuiltin st nm .primitive) st
      let tid := st.types.length
      let st := addBuiltin st "$sapc.typeid" .typeId
      let st := { st with typeIdType := some tid }
      let ct := st.types.length
      let st := addBuiltin st "$sapc.customtag" .attr
      let st := { st with customTagAttr := some ct }
      let tagField : SField :=
        { name := "tag",
          typeIdx := some ((st.getNs nsFresh).types.headD 0), -- the first type is always string
          location := builtinLoc }
      st.updType ct fun ty => { ty with fields := ty.fields ++ [tagField] }

/-- The shared field builder `Compiler::build(SchemaType&, ast::Field
const&)`: the field type resolves with the owning type as scope. -/
def buildField (fuel : Nat) (st : CState) (typeIdx : Nat)
    (fieldDecl : CAst.Field) : CState :=
  let rt := requireTypeRef fuel st fieldDecl.type (some typeIdx)
  let ra := translateAnnoList fuel rt.1 fieldDecl.annotations
  let r :=
    match fieldDecl.init with
    | some l =>
        let rv := translateLit fuel ra.1 l
        (rv.1, some rv.2)
    | none => (ra.1, none)
  r.1.updType typeIdx fun ty =>
    { ty with fields := ty.fields ++ [{
        name := fieldDecl.name.id, location := fieldDecl.name.loc,
        typeIdx := rt.2, defaultValue := r.2, annotations := ra.2 }] }

/-- `Compiler::build(schema::TypeUnion&, ast::Member const&)`. -/
def buildMember (fuel : Nat) (st : CState) (typeIdx : Nat)
    (memberDecl : CAst.Member) : CState :=
  let rt := requireTypeRef fuel st memberDecl.type (some typeIdx)
  let ra := translateAnnoList fuel rt.1 memberDecl.annotations
  ra.1.updType typeIdx fun ty =>
    { ty with members := ty.members ++ [{
        name := memberDecl.name.id, location := memberDecl.name.loc,
        typeIdx := rt.2, annotations := ra.2 }] }

/-- `Compiler::build(schema::TypeEnum&, ast::EnumItem const&)`. -/
def buildEnumItem (fuel : Nat) (st : CState) (typeIdx : Nat)
    (itemDecl : CAst.EnumItem) : CState :=
  let ra := translateAnnoList fuel st itemDecl.annotations
  ra.1.updType typeIdx fun ty =>
    { ty with items := ty.items ++ [{
        name := itemDecl.name.id, location := itemDecl.name.loc,
        parent := typeIdx, value := itemDecl.value, annotations := ra.2 }] }

/-- `Compiler::build(ast::StructDecl const&)`: the only builder with
the custom-tag annotation block; generic placeholders are built before
fields so field types can refer to them. -/
def buildStructDecl (fuel : Nat) (st : CState) (d : CAst.StructDecl) :
    CState :=
  let mod := st.top.modIdx
  let nsTop := st.top.nsStack.headD 0
  let fresh := st.types.length
  let st := { st with types := st.types ++ [{
      name := d.name.id, qualifiedName := qualify st d.name.id,
      kind := .struct, owner := mod, scope := some nsTop,
      location := d.name.loc }] }
  let st :=
    match d.baseType with
    | some ref =>
        let r := requireTypeRef fuel st ref none
        r.1.updType fresh fun ty => { ty with baseType := r.2 }
    | none => st
  let ra := translateAnnoList fuel st d.annotations
  let st := ra.1.updType fresh fun ty =>
    { ty with annotations := ty.annotations ++ ra.2 }
  let st :=
    if d.customTag ≠ "" then
      match lookupAssocStr st.customTagMap d.customTag with
      | some tagDecl =>
          let r2 := translateAnnoList fuel st tagDecl.annotations
          let st := r2.1.updType fresh fun ty =>
            { ty with annotations := ty.annotations ++ r2.2 }
          let st := (makeAvailable fuel st st.customTagAttr).1
          let tagAnno : SAnnotation :=
            { typeIdx := st.customTagAttr, location := builtinLoc,
              args := [.vstr builtinLoc d.customTag] }
          st.updType fresh fun ty =>
            { ty with annotations := ty.annotations ++ [tagAnno] }
      | none => st -- the source asserts the tag is registered
    else st
  let st := d.generics.foldl
    (fun st gen =>
      let gfresh := st.types.length
      let st := { st with types := st.types ++ [{
          name := gen.id,
          qualifiedName := (st.getType fresh).qualifiedName ++ "." ++ gen.id,
          kind := .generic, owner := mod,
          scope := (st.getType fresh).scope,
          parent := some fresh : SType }] }
      let st := st.updType fresh fun ty =>
        { ty with generics := ty.generics ++ [gfresh] }
      st.updMod mod fun m => { m with types := m.types ++ [gfresh] })
    st
  let st := d.fields.foldl (fun st f => buildField fuel st fresh f) st
  let st := st.updMod mod fun m => { m with types := m.types ++ [fresh] }
  st.updNs nsTop fun n => { n with types := n.types ++ [fresh] }

/-- `Compiler::build(ast::AliasDecl const&)`: no custom-tag block; the
target resolves with the alias type itself as scope. -/
def buildAliasDecl (fuel : Nat) (st : CState) (d : CAst.AliasDecl) :
    CState :=
  let mod := st.top.modIdx
  let nsTop := st.top.nsStack.headD 0
  let fresh := st.types.length
  let st := { st with types := st.types ++ [{
      name := d.name.id, qualifiedName := qualify st d.name.id,
      kind := .alias, owner := mod, scope := some nsTop,
      location := d.name.loc }] }
  let ra := translateAnnoList fuel st d.annotations
  let st := ra.1.updType fresh fun ty =>
    { ty with annotations := ty.annotations ++ ra.2 }
  let st :=
    match d.targetType with
    | some ref =>
        let r := requireTypeRef fuel st ref (some fresh)
        r.1.updType fresh fun ty => { ty with ref := r.2 }
    | none => st
  let st := st.updMod mod fun m => { m with types := m.types ++ [fresh] }
  st.updNs nsTop fun n => { n with types := n.types ++ [fresh] }

/-- `Compiler::build(ast::AttributeDecl const&)`. -/
def buildAttributeDecl (fuel : Nat) (st : CState) (d : CAst.AttributeDecl) :
    CState :=
  let mod := st.top.modIdx
  let nsTop := st.top.nsStack.headD 0
  let fresh := st.types.length
  let st := { st with types := st.types ++ [{
      name := d.name.id, qualifiedName := qualify st d.name.id,
      kind := .attr, owner := mod, scope := some nsTop,
      location := d.name.loc }] }
  let ra := translateAnnoList fuel st d.annotations
  let st := ra.1.updType fresh fun ty =>
    { ty with annotations := ty.annotations ++ ra.2 }
  let st := d.fields.foldl (fun st f => buildField fuel st fresh f) st
  let st := st.updMod mod fun m => { m with types := m.types ++ [fresh] }
  st.updNs nsTop fun n => { n with types := n.types ++ [fresh] }

/-- `Compiler::build(ast::UnionDecl const&)`: no custom-tag block. -/
def buildUnionDecl (fuel : Nat) (st : CState) (d : CAst.UnionDecl) :
    CState :=
  let mod := st.top.modIdx
  let nsTop := st.top.nsStack.headD 0
  let fresh := st.types.length
  let st := { st with types := st.types ++ [{
      name := d.name.id, qualifiedName := qualify st d.name.id,
      kind := .union, owner := mod, scope := some nsTop,
      location := d.name.loc }] }
  let ra := translateAnnoList fuel st d.annotations
  let st := ra.1.updType fresh fun ty =>
    { ty with annotations := ty.annotations ++ ra.2 }
  let st := d.members.foldl (fun st m => buildMember fuel st fresh m) st
  let st := st.updMod mod fun m => { m with types := m.types ++ [fresh] }
  st.updNs nsTop fun n => { n with types := n.types ++ [fresh] }

/-- `Compiler::build(ast::EnumDecl const&)`: no custom-tag block; the
declared base type is not used. -/
def buildEnumDecl (fuel : Nat) (st : CState) (d : CAst.EnumDecl) :
    CState :=
  let mod := st.top.modIdx
  let nsTop := st.top.nsStack.headD 0
  let fresh := st.types.length
  let st := { st with types := st.types ++ [{
      name := d.name.id, qualifiedName := qualify st d.name.id,
      kind := .enum, owner := mod, scope := some nsTop,
      location := d.name.loc }] }
  let ra := translateAnnoList fuel st d.annotations
  let st := ra.1.updType fresh fun ty =>
    { ty with annotations := ty.annotations ++ ra.2 }
  let st := d.items.foldl (fun st it => buildEnumItem fuel st fresh it) st
  let st := st.updMod mod fun m => { m with types := m.types ++ [fresh] }
  st.updNs nsTop fun n => { n with types := n.types ++ [fresh] }

/-- `Compiler::build(ast::ConstantDecl const&)`: no custom-tag block. -/
def buildConstantDecl (fuel : Nat) (st : CState) (d : CAst.ConstantDecl) :
    CState :=
  let mod := st.top.modIdx
  let nsTop := st.top.nsStack.headD 0
  let fresh := st.constants.length
  let rt := requireTypeRef fuel st d.type none
  let rv := translateLit fuel rt.1 d.value
  let st := { rv.1 with constants := rv.1.constants ++ [({
      name := d.name.id, qualifiedName := qualify rv.1 d.name.id,
      location := d.name.loc, owner := mod, scope := some nsTop,
      typeIdx := rt.2, value := rv.2 } : SConstant)] }
  let st := st.updMod mod fun m => { m with constants := m.constants ++ [fresh] }
  st.updNs nsTop fun n => { n with constants := n.constants ++ [fresh] }

/-- The compilation environment: the parsed source of every file
(`parse` composed with the loader) and the external
`resolveFile` contract mapping an import id to the resolved path. -/
structure Env where
  files : List (String × CAst.ModuleUnit) := []
  importMap : List (String × String) := []

mutual

/-- `Compiler::build(ast::Declaration const&)` together with the
namespace builder (its declaration loop recurses). -/
def buildDecl (fuel : Nat) (env : Env) (st : CState) (d : CAst.Decl) :
    CState :=
  match fuel with
  | 0 => st
  | fuel + 1 =>
    match d with
    | .namespaceDecl name decls =>
        let mod := st.top.modIdx
        let parent := st.top.nsStack.headD 0
        let nsFresh := st.namespaces.length
        let st := { st with namespaces := st.namespaces ++ [({
            name := name.id, qualifiedName := qualify st name.id,
            location := name.loc, owner := some mod,
            scope := some parent } : SNamespace)] }
        let st := st.updMod mod fun m =>
          { m with namespaces := m.namespaces ++ [nsFresh] }
        let st := st.updNs parent fun n =>
          { n with namespaces := n.namespaces ++ [nsFresh] }
        let st := st.updTop fun fs => { fs with nsStack := nsFresh :: fs.nsStack }
        let st := decls.foldl (fun st d => buildDecl fuel env st d) st
        st.updTop fun fs => { fs with nsStack := fs.nsStack.tail }
    | .structDecl d => buildStructDecl fuel st d
    | .aliasDecl d => buildAliasDecl fuel st d
    | .unionDecl d => buildUnionDecl fuel st d
    | .attributeDecl d => buildAttributeDecl fuel st d
    | .enumDecl d => buildEnumDecl fuel st d
    | .constantDecl d => buildConstantDecl fuel st d
    | .importDecl target => buildImportDecl fuel env st target
    | .moduleDecl _ annos =>
        let ra := translateAnnoList fuel st annos
        ra.1.updMod ra.1.top.modIdx fun m =>
          { m with annotations := m.annotations ++ ra.2 }
    | .customTagDecl d =>
        -- unordered_map::insert keeps an existing entry
        if (lookupAssocStr st.customTagMap d.name.id).isSome then st
        else { st with customTagMap := st.customTagMap ++ [(d.name.id, d)] }

/-- `Compiler::build(ast::ImportDecl const&)`: resolve the file, check
the (never-populated) `moduleMap`, and compile; a module that fails to
compile is not recorded as an import. -/
def buildImportDecl (fuel : Nat) (env : Env) (st : CState)
    (target : CAst.Identifier) : CState :=
  match fuel with
  | 0 => st
  | fuel + 1 =>
    let mod := st.top.modIdx
    match lookupAssocStr env.importMap target.id with
    | none => st.logError target.loc (target.id ++ ": module not found")
    | some filename =>
      match lookupAssocStr st.moduleMap filename with
      | some _ => st
      | none =>
        match compileFile fuel env st filename with
        | (st, some imp) =>
            st.updMod mod fun m => { m with imports := m.imports ++ [imp] }
        | (st, none) => st

/-- `Compiler::compile(fs::path const&)`: record the dependency, parse,
ensure the core module, allocate the module and its root namespace,
push a build state, walk the declarations, pop.  Nothing records the
file in `moduleMap`. -/
def compileFile (fuel : Nat) (env : Env) (st : CState) (filename : String) :
    CState × Option Nat :=
  match fuel with
  | 0 => (st, none)
  | fuel + 1 =>
    let st := { st with dependencies := st.dependencies ++ [filename] }
    match lookupAssocStr env.files filename with
    | none => (st, none)
    | some unit =>
      let st := createCoreModule st
      let modFresh := st.modules.length
      let nsFresh := st.namespaces.length
      let st := { st with
        modules := st.modules ++ [({ name := unit.name.id,
                                     location := unit.name.loc,
                                     root := nsFresh } : SModule)],
        namespaces := st.namespaces ++ [({ owner := some modFresh } : SNamespace)] }
      let st := { st with
        stack := ({ unit := unit, modIdx := modFresh,
                    nsStack := [nsFresh] } : FState) :: st.stack }
      let st := unit.decls.foldl (fun st d => buildDecl fuel env st d) st
      let st := { st with stack := st.stack.tail }
      (st, some modFresh)

end

/-- `sapc::compile(Context&, Log&)`: compile the target file from an
empty context. -/
def compileProgram (env : Env) (fuel : Nat) (targetFile : String) :
    CState × Option Nat :=
  compileFile fuel env {} targetFile

/-- The driver's success condition: a root module and no errors. -/
def compileOk (r : CState × Option Nat) : Bool :=
  r.2.isSome && r.1.errCount == 0

end CS

/-! ## Concrete programs for the compiler claims -/

def iden (s : String) : CAst.Identifier := { id := s }

def tname (s : String) : CAst.TypeRef := .name {} [iden s]

/-- C1 scenario: the root module imports module `a` twice. -/
def c1RootUnit : CAst.ModuleUnit :=
  { name := iden "root", filename := "root.sap",
    decls := [.moduleDecl (iden "root") [],
              .importDecl (iden "a"),
              .importDecl (iden "a")] }

def c1AUnit : CAst.ModuleUnit :=
  { name := iden "a", filename := "a.sap",
    decls := [.moduleDecl (iden "a") []] }

def c1Env : CS.Env :=
  { files := [("root.sap", c1RootUnit), ("a.sap", c1AUnit)],
    importMap := [("a", "a.sap")] }

def c1Run : CS.CState × Option Nat := CS.compileProgram c1Env 30 "root.sap"

/-- C2 scenario: one struct whose two fields are arrays of `int` with
different declared static sizes. -/
def c2Unit : CAst.ModuleUnit :=
  { name := iden "m", filename := "m.sap",
    decls := [.moduleDecl (iden "m") [],
              .structDecl { name := iden "S", fields :=
                [{ name := iden "xs", type := .array {} (tname "int") (some 3) },
                 { name := iden "ys", type := .array {} (tname "int") (some 5) }] }] }

def c2Env : CS.Env := { files := [("m.sap", c2Unit)] }


/-- C3 scenario: module `a` declares a struct with an `int[]` field
(interning `int[]` with owner `a`); the root module imports `a` and
declares its own struct with an `int[]` field. -/
def c3AUnit : CAst.ModuleUnit :=
  { name := iden "a", filename := "a.sap",
    decls := [.moduleDecl (iden "a") [],
              .structDecl { name := iden "S", fields :=
                [{ name := iden "ys", type := .array {} (tname "int") none }] }] }

def c3RootUnit : CAst.ModuleUnit :=
  { name := iden "root", filename := "root.sap",
    decls := [.moduleDecl (iden "root") [],
              .importDecl (iden "a"),
              .structDecl { name := iden "R", fields :=
                [{ name := iden "xs", type := .array {} (tname "int") none }] }] }

def c3Env : CS.Env :=
  { files := [("root.sap", c3RootUnit), ("a.sap", c3AUnit)],
    importMap := [("a", "a.sap")] }


/-- The `[Doc("...")]` attribute and annotation of the custom-tag
scenarios. -/
def docAttrFields : List CAst.Field :=
  [{ name := iden "text", type := tname "string" }]

def docAttr : CAst.Decl :=
  .attributeDecl { name := iden "Doc", fields := docAttrFields }

def docAnno (s : String) : CAst.Annotation :=
  { name := [iden "Doc"], args := [.lstr {} s] }

/-- C7 struct scenario: `use entity : struct;` carrying `[Doc("u")]`,
then `[Doc("x")] entity E {}`. -/
def c7StructUnit : CAst.ModuleUnit :=
  { name := iden "m", filename := "m.sap",
    decls := [.moduleDecl (iden "m") [],
              docAttr,
              .customTagDecl { name := iden "entity", tagKind := .struct,
                               annotations := [docAnno "u"] },
              .structDecl { name := iden "E", customTag := "entity",
                            annotations := [docAnno "x"] }] }

def c7StructEnv : CS.Env := { files := [("m.sap", c7StructUnit)] }


/-- C7 enum scenario: `use flags : enum;` carrying `[Doc("u")]`, then
`[Doc("x")] flags F { A }`. -/
def c7EnumUnit : CAst.ModuleUnit :=
  { name := iden "m", filename := "m.sap",
    decls := [.moduleDecl (iden "m") [],
              docAttr,
              .customTagDecl { name := iden "flags", tagKind := .enum,
                               annotations := [docAnno "u"] },
              .enumDecl { name := iden "F", customTag := "flags",
                          annotations := [docAnno "x"],
                          items := [{ name := iden "A" }] }] }

def c7EnumEnv : CS.Env := { files := [("m.sap", c7EnumUnit)] }


/-- Shorthand for a core-module builtin type record. -/
def bTy (nm : String) (k : CS.TKind) : CS.SType :=
  { name := nm, qualifiedName := nm, kind := k, owner := 0, scope := some 0,
    location := builtinLoc }

/-- The compiler state right after `createCoreModule` has run on the
empty context, written out literally (certified against the function by
`coreState_eq`).  Types 0-4 are the primitives, 5 is `$sapc.typeid`,
6 is `$sapc.customtag`. -/
def coreState : CS.CState :=
  { modules := [{ name := "$sapc", root := 0, types := [0, 1, 2, 3, 4, 5, 6] }],
    namespaces := [{ types := [0, 1, 2, 3, 4, 5, 6] }],
    types := [bTy "string" .primitive, bTy "bool" .primitive,
              bTy "byte" .primitive, bTy "int" .primitive,
              bTy "float" .primitive,
              bTy "$sapc.typeid" .typeId,
              { bTy "$sapc.customtag" .attr with fields :=
                  [{ name := "tag", typeIdx := some 0, location := builtinLoc }] }],
    typeIdType := some 5, customTagAttr := some 6, coreModule := some 0 }

/-- The compiler state in the middle of compiling a module `m` (module
index 1, root namespace index 1, on top of the core module): the state
every literal scenario below starts from. -/
def inModuleState : CS.CState :=
  { coreState with
    modules := coreState.modules ++ [{ name := "m", root := 1 }],
    namespaces := coreState.namespaces ++ [{ owner := some 1 }],
    stack := [{ modIdx := 1, nsStack := [1] }] }

/-- The compiler state while compiling the root module of the C3
scenario: module `a` (index 2) has already been compiled through
the import — its struct `S` (type 7) holds an `int[]` field, so the array
type `int[]` (type 8, owned by `a`) sits in the global `arrayTypeMap`
keyed by the element `int` (type 3) — and the root module (index 1,
the stack top) has declared its struct `R` (type 9) whose `int[]`
field is about to be built.  These are exactly the values the full
pipeline produces on the two files of `c3Env`. -/
def c3State : CS.CState :=
  { coreState with
    modules := [{ name := "$sapc", root := 0, types := [0, 1, 2, 3, 4, 5, 6] },
                { name := "root", root := 1, imports := [2], types := [3, 9] },
                { name := "a", root := 2, types := [3, 8, 7] }],
    namespaces := [{ types := [0, 1, 2, 3, 4, 5, 6] },
                   { owner := some 1, types := [9] },
                   -- namespace 1 lists only R; `int` entered the module
                   -- type list through makeAvailable, not the namespace
                   { owner := some 2, types := [7] }],
    types := coreState.types ++
      [{ name := "S", qualifiedName := "S", kind := .struct, owner := 2,
         scope := some 2,
         fields := [{ name := "ys", typeIdx := some 8 }] },
       { name := "int[]", qualifiedName := "int[]", kind := .array,
         owner := 2, scope := some 0, ofIdx := some 3 },
       { name := "R", qualifiedName := "R", kind := .struct, owner := 1,
         scope := some 1 }],
    arrayTypeMap := [(3, 8)],
    stack := [{ modIdx := 1, nsStack := [1],
                importedTypes := [3], resolveCache := [(["int"], .type 3)] }] }

/-- Building R's `int[] xs` field in that state. -/
def c3FieldRun : CS.CState :=
  CS.buildField 20 c3State 9 { name := iden "xs", type := .array {} (tname "int") none }

/-- The compiler state of the C7 scenarios right before the tagged
declaration is built: the attribute `Doc` (type 7, no fields) is
declared in module `m`, and the custom tags `entity` (struct, its use
declaration annotated `[Doc]`) and `flags` (enum, likewise annotated)
are registered. -/
def c7State : CS.CState :=
  { inModuleState with
    modules := [{ name := "$sapc", root := 0, types := [0, 1, 2, 3, 4, 5, 6] },
                { name := "m", root := 1, types := [7] }],
    namespaces := [{ types := [0, 1, 2, 3, 4, 5, 6] },
                   { owner := some 1, types := [7] }],
    types := coreState.types ++
      [{ name := "Doc", qualifiedName := "Doc", kind := .attr, owner := 1,
         scope := some 1 }],
    customTagMap :=
      [("entity", { name := iden "entity", tagKind := .struct,
                    annotations := [{ name := [iden "Doc"] }] }),
       ("flags", { name := iden "flags", tagKind := .enum,
                   annotations := [{ name := [iden "Doc"] }] })] }

/-- Building `[Doc] entity E {}` (a struct through the `entity` custom
tag) in that state; `E` becomes type 8. -/
def c7StructBuild : CS.CState :=
  CS.buildStructDecl 20 c7State
    { name := iden "E", customTag := "entity",
      annotations := [{ name := [iden "Doc"] }] }

/-- Building `flags F { A }` (an enum through the `flags` custom tag,
the enum itself carrying no annotations of its own) in that state;
`F` becomes type 8. -/
def c7EnumBuild : CS.CState :=
  CS.buildEnumDecl 20 c7State
    { name := iden "F", customTag := "flags",
      items := [{ name := iden "A" }] }

/-- The C7 scenario state with three more registered custom tags — a
union tag `record`, an alias tag `handle`, and a const tag `val`, each
use declaration carrying a `[Doc]` annotation. -/
def c7MoreState : CS.CState :=
  { c7State with
    customTagMap := c7State.customTagMap ++
      [("record", { name := iden "record", tagKind := .union,
                    annotations := [{ name := [iden "Doc"] }] }),
       ("handle", { name := iden "handle", tagKind := .alias,
                    annotations := [{ name := [iden "Doc"] }] }),
       ("val", { name := iden "val", tagKind := .constant,
                 annotations := [{ name := [iden "Doc"] }] })] }

/-- Building `[Doc] record U {}` (a union through the `record` custom
tag) in that state; `U` becomes type 8. -/
def c7UnionBuild : CS.CState :=
  CS.buildUnionDecl 20 c7MoreState
    { name := iden "U", customTag := "record",
      annotations := [{ name := [iden "Doc"] }] }

/-- Building `[Doc] handle A = int;` (an alias through the `handle`
custom tag) in that state; `A` becomes type 8. -/
def c7AliasBuild : CS.CState :=
  CS.buildAliasDecl 20 c7MoreState
    { name := iden "A", customTag := "handle",
      targetType := some (tname "int"),
      annotations := [{ name := [iden "Doc"] }] }

/-- Building `[Doc] val c = 1;` (a constant through the `val` custom
tag) in that state; `c` becomes constant 0. -/
def c7ConstBuild : CS.CState :=
  CS.buildConstantDecl 20 c7MoreState
    { name := iden "c", customTag := "val",
      type := tname "int", value := .lint {} 1,
      annotations := [{ name := [iden "Doc"] }] }

/-- Resolving `int[3]` and then `int[5]` in the plain module state (the
C2 array scenario). -/
def c2ArrayRun1 : CS.CState × Option Nat :=
  CS.resolveType 20 inModuleState (.array {} (tname "int") (some 3)) none

def c2ArrayRun2 : CS.CState × Option Nat :=
  CS.resolveType 20 c2ArrayRun1.1 (.array {} (tname "int") (some 5)) none

/-- A minimal compiler state for the resolution-stability witness: one
module whose root namespace holds one struct `T`. -/
def c6State : CS.CState :=
  { modules := [{ name := "m", root := 0, types := [0] }],
    namespaces := [{ owner := some 0, types := [0] }],
    types := [{ name := "T", qualifiedName := "T", owner := 0,
                scope := some 0, kind := .struct }],
    stack := [{ modIdx := 0, nsStack := [0] }] }

/-- Projection of a string-valued schema value (used to state facts
about annotation arguments). -/
def svalueStr : CS.SValue → Option String
  | .vstr _ s => some s
  | _ => none

/-- A compiled module `m` whose root-namespace struct `S` carries two
fields named `a` (the duplicate-field validation scenario). -/
def c4Loc1 : JS.JLoc := { filename := "m.sap", startLine := 2, startCol := 5 }

def c4Loc2 : JS.JLoc := { filename := "m.sap", startLine := 3, startCol := 5 }

def c4Arena : JS.JArena :=
  { modules := [{ name := "m",
                  location := { filename := "m.sap", startLine := 1, startCol := 1 },
                  root := 0, types := [0] }],
    namespaces := [{ name := "", qualifiedName := "", owner := 0, types := [0] }],
    types := [{ name := "S", qualifiedName := "S", scope := 0, kind := .struct,
                fields := [{ name := "a", typeIdx := 0, location := c4Loc1 },
                           { name := "a", typeIdx := 0, location := c4Loc2 }] }],
    constants := [] }

/-- A compiled module `m` with one explicit namespace `outer` (index 1)
that owns a constant `outer.seven` (index 0); the namespace also holds
one struct type.  Exercises the namespace serializer with a non-empty
constants list. -/
def c10Arena : JS.JArena :=
  { modules := [{ name := "m",
                  location := { filename := "m.sap", startLine := 1, startCol := 1 },
                  root := 0, types := [0], constants := [0], namespaces := [1] }],
    namespaces := [{ name := "", qualifiedName := "", owner := 0, types := [],
                     constants := [], namespaces := [1] },
                   { name := "outer", qualifiedName := "outer", owner := 0, parent := 0,
                     types := [0], constants := [0], namespaces := [] }],
    types := [{ name := "S", qualifiedName := "outer.S", scope := 1, kind := .struct }],
    constants := [{ name := "seven", qualifiedName := "outer.seven", scope := 1,
                    typeIdx := 0, value := .vint 7 }] }

/-- A compiled module `m` whose type list holds an enum `E` with items
`A = 0` and `B = 3`, followed by a generic struct `S` with one type
parameter `T`.  Exercises the kind-specific parts of the type
serializer. -/
def c9Arena : JS.JArena :=
  { modules := [{ name := "m",
                  location := { filename := "m.sap", startLine := 1, startCol := 1 },
                  root := 0, types := [0, 2, 1] }],
    namespaces := [{ name := "", qualifiedName := "", owner := 0, types := [0, 1] }],
    types := [{ name := "E", qualifiedName := "E", scope := 0, kind := .enum,
                items := [{ name := "A", value := 0 }, { name := "B", value := 3 }] },
              { name := "S", qualifiedName := "S", scope := 0, kind := .struct,
                generics := [2],
                fields := [{ name := "x", typeIdx := 2 }] },
              { name := "T", qualifiedName := "S.T", scope := 0, kind := .generic }],
    constants := [] }

def Json.isArr (j : Json) : Bool :=
  match j with
  | .arr _ => true
  | _ => false

def Json.isObj (j : Json) : Bool :=
  match j with
  | .obj _ => true
  | _ => false


/- ## Interning keys (C2 support) -/

/-- A derived-type interning map only stores indices of already-allocated
types. -/
def natMapBound (m : List (Nat × Nat)) (n : Nat) : Prop := ∀ p ∈ m, p.2 < n

/-- A derived-type interning map stores distinct values under distinct
keys. -/
def natMapInj (m : List (Nat × Nat)) : Prop :=
  ∀ p ∈ m, ∀ q ∈ m, p.2 = q.2 → p.1 = q.1

/-- Bound invariant for the specialization map (keys are qualified-name
sequences). -/
def strMapBound (m : List (List String × Nat)) (n : Nat) : Prop :=
  ∀ p ∈ m, p.2 < n

/-- Injectivity invariant for the specialization map. -/
def strMapInj (m : List (List String × Nat)) : Prop :=
  ∀ p ∈ m, ∀ q ∈ m, p.2 = q.2 → p.1 = q.1


/- ## Lookup-walk state preservation (C5, C6 support) -/

/-- The facets of the compiler state the name-lookup walk leaves
untouched: the top-of-stack resolution cache, the log, and the stack
depth. -/
def Pres (st1 st : CS.CState) : Prop :=
  st1.top.resolveCache = st.top.resolveCache
  ∧ st1.log = st.log
  ∧ st1.stack.length = st.stack.length


/- ## Annotation binding (C5 support) -/

/-- The value sequence obtained by translating the positional arguments
in order, threading the compiler state (the bound annotation's prefix is
compared against this). -/
def translatedArgs (fuel : Nat) (st : CS.CState) :
    List CAst.Literal → List CS.SValue
  | [] => []
  | a :: rest =>
      (CS.translateLit fuel st a).2
        :: translatedArgs fuel (CS.translateLit fuel st a).1 rest

/-- The log only ever grows: `st1` extends the log of `st`. -/
def LogExt (st st1 : CS.CState) : Prop := ∃ tail, st1.log = st.log ++ tail


/-- State for the annotation-binding witness: the module declares an
attribute `Info` (type 7) with a required `text` field and a `count`
field defaulting to 1. -/
def c5State : CS.CState :=
  { inModuleState with
    modules := [{ name := "$sapc", root := 0, types := [0, 1, 2, 3, 4, 5, 6] },
                { name := "m", root := 1, types := [7] }],
    namespaces := [{ types := [0, 1, 2, 3, 4, 5, 6] },
                   { owner := some 1, types := [7] }],
    types := coreState.types ++
      [{ name := "Info", qualifiedName := "Info", kind := .attr, owner := 1,
         scope := some 1,
         fields := [{ name := "text", typeIdx := some 0 },
                    { name := "count", typeIdx := some 3,
                      defaultValue := some (.vint {} 1) }] }] }

/-- The annotation `[Info("x")]`: one positional argument, two fields. -/
def c5Anno : CAst.Annotation := { name := [iden "Info"], args := [.lstr {} "x"] }

/-- The pinned result of resolving the annotation name in `c5State`. -/
def c5Req : CS.CState × Option Nat :=
  CS.requireTypeQ 10 c5State [iden "Info"] none

/-! ## Theorems -/

/-- C4: for a root module that compiles without compilation errors but whose
aggregate type `S` holds two fields named `a`, validation does emit one error
diagnostic at the duplicate field's location immediately followed by one info
diagnostic at the first occurrence — but `Validator::validate` merges the
per-type results with `success |=` into an initially-true flag, so it still
reports success and the driver exits with code 0, not the documented 4.  This
theorem evaluates the embedded code at that failing input. -/
theorem c4_duplicate_field_exit_code :
    JS.validateModule c4Arena 0 =
      ([⟨.err, c4Loc2, "duplicate field a in type S"⟩,
        ⟨.info, c4Loc1, "first declaration of field a"⟩], true)
    ∧ JS.compileExitCode true c4Arena 0 = 0 := by
  exact ⟨by decide, by decide⟩

theorem objGet_objSet (entries : List (String × Json)) (k k' : String) (v : Json) :
    objGet (objSet entries k v) k' =
      if k = k' then some v else objGet entries k' := by
  induction entries with
  | nil => by_cases h : k = k' <;> simp [objSet, objGet, h]
  | cons e rest ih =>
      obtain ⟨k0, w⟩ := e
      simp only [objSet]
      by_cases h0 : k0 = k
      · subst h0
        simp only [if_pos rfl, objGet]
        by_cases h : k0 = k' <;> simp [h]
      · rw [if_neg h0]
        simp only [objGet]
        by_cases h : k0 = k'
        · subst h
          have hk : ¬ k = k0 := fun e => h0 e.symm
          simp [hk]
        · simp [h, ih]

theorem Json.lookup_set (j : Json) (k k' : String) (v : Json) :
    (j.set k v).lookup k' = if k = k' then some v else j.lookup k' := by
  cases j <;> simp [Json.set, Json.lookup, objGet_objSet] <;>
    by_cases h : k = k' <;> simp [objGet, h]

theorem lookup_foldl_set_preserve {α : Type} (f : α → String) (g : α → Json)
    (e : (Json × Json) → α → Json) (l : List α) (acc : Json × Json) (k : String)
    (h : acc.1.lookup k ≠ none) :
    ((l.foldl (fun acc c => (acc.1.set (f c) (g c), e acc c)) acc).1.lookup k) ≠ none := by
  induction l generalizing acc with
  | nil => exact h
  | cons c rest ih =>
      refine ih _ ?_
      simp only [Json.lookup_set]
      by_cases hc : f c = k <;> simp [hc, h]

theorem lookup_foldl_set_mem {α : Type} (f : α → String) (g : α → Json)
    (e : (Json × Json) → α → Json) (l : List α) (acc : Json × Json) (c : α)
    (h : c ∈ l) :
    ((l.foldl (fun acc c => (acc.1.set (f c) (g c), e acc c)) acc).1.lookup (f c)) ≠ none := by
  induction l generalizing acc with
  | nil => cases h
  | cons c0 rest ih =>
      rcases List.mem_cons.mp h with rfl | hmem
      · simp only [List.foldl_cons]
        apply lookup_foldl_set_preserve
        simp [Json.lookup_set]
      · simp only [List.foldl_cons]
        exact ih _ hmem

theorem objSet_append (entries : List (String × Json)) (k : String) (v : Json)
    (h : k ∉ entries.map (·.1)) : objSet entries k v = entries ++ [(k, v)] := by
  induction entries with
  | nil => simp [objSet]
  | cons e rest ih =>
      obtain ⟨k0, w⟩ := e
      simp only [List.map_cons, List.mem_cons] at h
      push_neg at h
      have hne : ¬ k0 = k := fun he => h.1 he.symm
      simp [objSet, hne, ih h.2]

theorem foldl_set_append {α : Type} (f : α → String) (g : α → Json)
    (e : (Json × Json) → α → Json) (l : List α) :
    ∀ (entries : List (String × Json)) (acc2 : Json),
      (∀ c ∈ l, f c ∉ entries.map (·.1)) → (l.map f).Nodup →
      ((l.foldl (fun acc c => (acc.1.set (f c) (g c), e acc c)) (Json.obj entries, acc2)).1)
        = Json.obj (entries ++ l.map (fun c => (f c, g c))) := by
  induction l with
  | nil => intro entries acc2 _ _; simp
  | cons c rest ih =>
      intro entries acc2 hdisj hnodup
      simp only [List.foldl_cons]
      have hset : (Json.obj entries).set (f c) (g c) = Json.obj (entries ++ [(f c, g c)]) := by
        simp only [Json.set]
        rw [objSet_append entries (f c) (g c) (hdisj c (List.mem_cons_self c rest))]
      simp only [List.map_cons, List.nodup_cons] at hnodup
      have hdisj2 : ∀ d ∈ rest, f d ∉ (entries ++ [(f c, g c)]).map (·.1) := by
        intro d hd
        simp only [List.map_append, List.mem_append]
        push_neg
        refine ⟨hdisj d (List.mem_cons_of_mem c hd), ?_⟩
        simp only [List.map_cons, List.map_nil, List.mem_singleton]
        intro hfeq
        exact hnodup.1 (hfeq ▸ List.mem_map_of_mem f hd)
      calc (List.foldl (fun acc c => (acc.1.set (f c) (g c), e acc c))
              ((Json.obj entries).set (f c) (g c), e (Json.obj entries, acc2) c) rest).1
      _ = (List.foldl (fun acc c => (acc.1.set (f c) (g c), e acc c))
              (Json.obj (entries ++ [(f c, g c)]), e (Json.obj entries, acc2) c) rest).1 := by
            rw [hset]
      _ = Json.obj ((entries ++ [(f c, g c)]) ++ rest.map (fun c => (f c, g c))) :=
            ih _ _ hdisj2 hnodup.2
      _ = Json.obj (entries ++ (c :: rest).map (fun c => (f c, g c))) := by
            simp

/-- C10: the serialized JSON for every namespace carries an empty
"constants" array no matter how many constants the namespace owns (the
constants loop in `to_json(Namespace const&)` pushes into the already
moved-from `types_json`), while every constant on the module's constant
list — namespace-owned ones included — appears as a key of the document's
top-level "constants" object. -/
theorem c10_namespace_constants_empty :
    (∀ (a : JS.JArena) (ns : JS.JNamespace),
        (JS.toJsonNamespace a ns).lookup "constants" = some (Json.arr []))
    ∧ (∀ (a : JS.JArena) (mi ci : Nat), ci ∈ (a.mod mi).constants →
        ∃ j, (JS.serializeToJson a mi).lookup "constants" = some j
          ∧ j.lookup (a.constant ci).qualifiedName ≠ none) := by
  constructor
  · intro a ns
    simp [JS.toJsonNamespace, Json.lookup_set]
  · intro a mi ci h
    simp [JS.serializeToJson, Json.lookup_set]
    exact lookup_foldl_set_mem
      (fun ci => (a.constant ci).qualifiedName)
      (fun ci => JS.toJsonConstant a (a.constant ci)) _ _ _ ci h

/-- Witness for `c10_namespace_constants_empty`: the namespace `outer` of
the concrete module owns the constant `outer.seven`, its serialized
namespace object still shows an empty "constants" array, and the top-level
"constants" object carries the key `outer.seven`. -/
theorem c10_namespace_constants_empty_witness :
    (JS.toJsonNamespace c10Arena (c10Arena.ns 1)).lookup "constants" =
      some (Json.arr [])
    ∧ ∃ j, (JS.serializeToJson c10Arena 0).lookup "constants" = some j
        ∧ j.lookup (c10Arena.constant 0).qualifiedName ≠ none := by
  exact ⟨c10_namespace_constants_empty.1 c10Arena (c10Arena.ns 1),
         c10_namespace_constants_empty.2 c10Arena 0 0 (by decide)⟩

/-- C9 counterexample: on the concrete module `m` with enum `E` and generic
struct `S`, the emitted document's "types" value is a JSON object (not the
claimed array of type-objects), the enum's type-object carries "names" and
"values" rather than the claimed "items", and the aggregate carries
"generics" while the claimed "typeParams" key is absent. -/
theorem c9_types_shape_counterexample :
    ((JS.serializeToJson c9Arena 0).lookup "types").map Json.isArr = some false
    ∧ ((JS.serializeToJson c9Arena 0).lookup "types").map Json.isObj = some true
    ∧ (((JS.serializeToJson c9Arena 0).lookup "types").bind (·.lookup "E")).bind
        (·.lookup "items") = none
    ∧ (((JS.serializeToJson c9Arena 0).lookup "types").bind (·.lookup "E")).bind
        (·.lookup "names") = some (Json.arr [.js "A", .js "B"])
    ∧ (((JS.serializeToJson c9Arena 0).lookup "types").bind (·.lookup "S")).bind
        (·.lookup "typeParams") = none
    ∧ (((JS.serializeToJson c9Arena 0).lookup "types").bind (·.lookup "S")).bind
        (·.lookup "generics") = some (Json.arr [.js "T"]) := by
  exact ⟨rfl, rfl, rfl, rfl, rfl, rfl⟩

/-- C9 amended: the emitted document's "types" value is a JSON object whose
entries, in module type-list order, map each type's qualified name to its
type-object (shown under distinct qualified names); each type-object carries
name, qualified, module, optionally namespace, kind, annotations, location,
and the kind-specific fields: names and values for enums; optionally base and
generics plus order and fields for aggregates; refType for indirect types;
refType plus typeParams for specialized types. -/
theorem c9_types_object_shape :
    (∀ (a : JS.JArena) (mi : Nat),
        ((a.mod mi).types.map (fun ti => (a.type ti).qualifiedName)).Nodup →
        (JS.serializeToJson a mi).lookup "types" =
          some (Json.obj ((a.mod mi).types.map
            (fun ti => ((a.type ti).qualifiedName, JS.toJsonType a (a.type ti))))))
    ∧ (∀ (a : JS.JArena) (t : JS.JType),
        (JS.toJsonType a t).keys =
          ["name", "qualified", "module"]
          ++ (if (a.ns t.scope).name ≠ "" then ["namespace"] else [])
          ++ ["kind", "annotations"]
          ++ (match t.kind with
              | .enum => ["names", "values"]
              | .struct | .union | .attr =>
                  (match t.refType with | some _ => ["base"] | none => [])
                  ++ (if t.generics ≠ [] then ["generics"] else [])
                  ++ ["order", "fields"]
              | .array | .pointer | .alias =>
                  (match t.refType with | some _ => ["refType"] | none => [])
              | .specialized => ["refType", "typeParams"]
              | _ => [])
          ++ ["location"]) := by
  constructor
  · intro a mi h
    simp [JS.serializeToJson, Json.lookup_set]
    simpa using foldl_set_append
      (fun ti => (a.type ti).qualifiedName)
      (fun ti => JS.toJsonType a (a.type ti)) _ _ [] (Json.arr []) (by simp) h
  · intro a t
    by_cases hns : (a.ns t.scope).name = "" <;>
      cases hk : t.kind <;>
      rcases hr : t.refType with _ | r <;>
      rcases hg : t.generics with _ | ⟨g0, gs⟩ <;>
      simp [JS.toJsonType, Json.set, objSet, Json.keys, hns, hk, hr, hg]

/-- Witness for `c9_types_object_shape`: the concrete module of the
counterexample has pairwise distinct qualified type names, and its "types"
object lists E, S.T and S in module type-list order. -/
theorem c9_types_object_shape_witness :
    ((c9Arena.mod 0).types.map (fun ti => (c9Arena.type ti).qualifiedName)).Nodup
    ∧ (JS.serializeToJson c9Arena 0).lookup "types" =
        some (Json.obj ((c9Arena.mod 0).types.map
          (fun ti => ((c9Arena.type ti).qualifiedName, JS.toJsonType c9Arena (c9Arena.type ti))))) := by
  refine ⟨by decide, c9_types_object_shape.1 c9Arena 0 (by decide)⟩

/-- C8: evaluating lexer.cc's `tokenize` at the failing inputs.  Its token
table carries no entries for `<` or `>` and none for the reserved words
`using`, `namespace`, `use` (which lexer.hh's `TokenType` declares and
grammar.cc consumes): the three words lex as plain Identifier tokens, the
angle brackets lex as Unknown with an error, and no KeywordUse /
KeywordUsing / KeywordNamespace token is ever produced.  The reserved words
that are present do follow the longest-identifier rule (`moduleX` is one
identifier). -/
theorem c8_lexer_missing_tokens :
    tokenize "use" =
      ([{ type := .identifier, line := 1, col := 1, dataString := "use" },
        { type := .endOfFile, line := 1, col := 4 }], true)
    ∧ tokenize "using" =
      ([{ type := .identifier, line := 1, col := 1, dataString := "using" },
        { type := .endOfFile, line := 1, col := 6 }], true)
    ∧ tokenize "namespace" =
      ([{ type := .identifier, line := 1, col := 1, dataString := "namespace" },
        { type := .endOfFile, line := 1, col := 10 }], true)
    ∧ tokenize "<" = ([{ type := .unknown, line := 1, col := 1 }], false)
    ∧ tokenize ">" = ([{ type := .unknown, line := 1, col := 1 }], false)
    ∧ tokenize "moduleX" =
      ([{ type := .identifier, line := 1, col := 1, dataString := "moduleX" },
        { type := .endOfFile, line := 1, col := 8 }], true)
    ∧ (∀ t ∈ (tokenize "use using namespace").1,
        t.type ≠ .keywordUse ∧ t.type ≠ .keywordUsing ∧ t.type ≠ .keywordNamespace) := by
  refine ⟨by decide, by decide, by decide, by decide, by decide, by decide, by decide⟩

set_option maxHeartbeats 4000000 in
/-- C1: evaluating the compiler at a root module that imports module `a`
through two import statements.  `a.sap` is parsed and built twice (two
schema modules named `a`, both recorded as imports and both appended to the
dependency list), and the final `moduleMap` is empty: no in-progress file's
path is ever recorded, so the repeat-visit short-circuit in
`Compiler::build(ast::ImportDecl const&)` is dead and cyclic imports
recurse without bound. -/
theorem c1_duplicate_import_compiled_twice :
    c1Run.1.dependencies = ["root.sap", "a.sap", "a.sap"]
    ∧ c1Run.1.modules.map (·.name) = ["$sapc", "root", "a", "a"]
    ∧ (c1Run.1.getMod 1).imports = [2, 3]
    ∧ c1Run.1.moduleMap = []
    ∧ c1Run.1.errCount = 0 := by
  exact ⟨by decide, by decide, by decide, by decide, by decide⟩

set_option maxRecDepth 20000 in
set_option maxHeartbeats 4000000 in
/-- The literal `coreState` is exactly what `createCoreModule` produces
from the empty context. -/
theorem coreState_eq : CS.createCoreModule {} = coreState := rfl

set_option maxRecDepth 20000 in
set_option maxHeartbeats 16000000 in
/-- C2 counterexample: resolving the array references `int[3]` and
`int[5]` — same element, different declared fixed sizes — in the same
module state yields the identical interned type object (index 7), because
`resolveType` drops the parsed `arraySize` and `createArrayType` interns
by the element alone; the claim requires distinct objects. -/
theorem c2_array_size_not_in_key :
    c2ArrayRun1.2 = some 7
    ∧ c2ArrayRun2.2 = some 7
    ∧ (c2ArrayRun2.1.getType 7).kind = .array
    ∧ (c2ArrayRun2.1.getType 7).name = "int[]"
    ∧ c2ArrayRun2.1.errCount = 0 := by
  exact ⟨by decide, by decide, by decide, by decide, by decide⟩

set_option maxRecDepth 20000 in
set_option maxHeartbeats 16000000 in
/-- C3: a cache hit in `createArrayType` returns the interned array with
the state — in particular the current module's type list — untouched
(first conjunct, the general hit path of the cited code), so building the
root struct's `int[] xs` field in the C3 scenario state gives the field
the array type owned by module `a` while the root module's type list
still lacks it: the list is not closed under reachability through field
types. -/
theorem c3_type_list_not_closed :
    (∀ (st : CS.CState) (of : Nat) (loc : CLoc) (arr : Nat),
        CS.lookupAssocNat st.arrayTypeMap of = some arr →
        CS.createArrayType st of loc = (st, arr))
    ∧ (c3FieldRun.getType 9).fields.map (·.typeIdx) = [some 8]
    ∧ (c3FieldRun.getType 8).kind = .array
    ∧ (c3FieldRun.getType 8).owner = 2
    ∧ (c3FieldRun.getType 9).owner = 1
    ∧ (c3FieldRun.getMod 1).types = [3, 9]
    ∧ 8 ∉ (c3FieldRun.getMod 1).types
    ∧ c3FieldRun.errCount = 0 := by
  refine ⟨?_, by decide, by decide, by decide, by decide, by decide,
          by decide, by decide⟩
  intro st of loc arr h
  unfold CS.createArrayType
  rw [h]

/-- Witness for `c3_type_list_not_closed`: the general hit-path conjunct
applied at the C3 scenario state, whose array map holds `int ↦ 8`. -/
theorem c3_type_list_not_closed_witness :
    CS.lookupAssocNat c3State.arrayTypeMap 3 = some 8
    ∧ CS.createArrayType c3State 3 {} = (c3State, 8) := by
  exact ⟨by decide, c3_type_list_not_closed.1 c3State 3 {} 8 (by decide)⟩

set_option maxRecDepth 20000 in
set_option maxHeartbeats 16000000 in
/-- C7 counterexample: building the enum `F` through the registered
custom tag `flags` — whose use declaration carries a `[Doc]`
annotation — leaves `F` with an empty annotation list: neither the
use declaration's annotations nor any `$sapc.customtag("flags")`
annotation appears, because `Compiler::build(ast::EnumDecl const&)` has
no custom-tag block.  The claim requires both for enums. -/
theorem c7_enum_custom_tag_without_annotation :
    (c7EnumBuild.getType 8).name = "F"
    ∧ (c7EnumBuild.getType 8).kind = .enum
    ∧ (c7EnumBuild.getType 8).annotations.map
        (fun a => (a.typeIdx, a.args.map svalueStr)) = []
    ∧ c7EnumBuild.customTagAttr = some 6
    ∧ (c7EnumBuild.getType 6).qualifiedName = "$sapc.customtag"
    ∧ c7EnumBuild.errCount = 0 := by
  exact ⟨by decide, by decide, by decide, by decide, by decide, by decide⟩

set_option maxRecDepth 20000 in
set_option maxHeartbeats 16000000 in
/-- C7 amended: only a struct introduced through a registered custom tag
receives the use declaration's annotations, cloned in order after the
struct's own annotations, followed by one appended
`$sapc.customtag("tag-name")` annotation.  No other builder has the
custom-tag block: a union or alias introduced through a custom tag
receives only the translations of its own annotations, a const's
annotations are never translated at all (its compiled constant carries
none), and the enum case is the separate counterexample.  Shown on the
scenario states: `[Doc] entity E {}` yields annotations Doc (own),
Doc (cloned from the use declaration), `$sapc.customtag("entity")`,
while `[Doc] record U {}`, `[Doc] handle A = int;` and `[Doc] val c = 1;`
yield only the own Doc annotation for the union and the alias and an
empty annotation list for the constant. -/
theorem c7_struct_custom_tag_annotations :
    (c7StructBuild.getType 8).name = "E"
    ∧ (c7StructBuild.getType 8).kind = .struct
    ∧ (c7StructBuild.getType 8).annotations.map
        (fun a => (a.typeIdx, a.args.map svalueStr)) =
      [(some 7, []), (some 7, []), (some 6, [some "entity"])]
    ∧ (c7StructBuild.getType 7).name = "Doc"
    ∧ c7StructBuild.customTagAttr = some 6
    ∧ (c7StructBuild.getType 6).qualifiedName = "$sapc.customtag"
    ∧ c7StructBuild.errCount = 0
    ∧ (c7UnionBuild.getType 8).name = "U"
    ∧ (c7UnionBuild.getType 8).kind = .union
    ∧ (c7UnionBuild.getType 8).annotations.map
        (fun a => (a.typeIdx, a.args.map svalueStr)) = [(some 7, [])]
    ∧ c7UnionBuild.errCount = 0
    ∧ (c7AliasBuild.getType 8).name = "A"
    ∧ (c7AliasBuild.getType 8).kind = .alias
    ∧ (c7AliasBuild.getType 8).annotations.map
        (fun a => (a.typeIdx, a.args.map svalueStr)) = [(some 7, [])]
    ∧ c7AliasBuild.errCount = 0
    ∧ (c7ConstBuild.getConstant 0).name = "c"
    ∧ (c7ConstBuild.getConstant 0).annotations.map
        (fun a => (a.typeIdx, a.args.map svalueStr)) = []
    ∧ c7ConstBuild.errCount = 0 := by
  decide

/-! ## Interning, lookup-preservation, and binding lemmas -/

theorem lookupAssocNat_mem {β : Type} {m : List (Nat × β)} {k : Nat} {v : β}
    (h : CS.lookupAssocNat m k = some v) : (k, v) ∈ m := by
  induction m with
  | nil => simp [CS.lookupAssocNat] at h
  | cons p rest ih =>
    obtain ⟨k0, v0⟩ := p
    by_cases hk : k0 = k
    · simp [CS.lookupAssocNat, hk] at h
      simp [hk, h]
    · simp [CS.lookupAssocNat, hk] at h
      exact List.mem_cons_of_mem _ (ih h)

theorem lookupAssocNat_append_some {β : Type} {m : List (Nat × β)} {k : Nat}
    {v : β} (m2 : List (Nat × β)) (h : CS.lookupAssocNat m k = some v) :
    CS.lookupAssocNat (m ++ m2) k = some v := by
  induction m with
  | nil => simp [CS.lookupAssocNat] at h
  | cons p rest ih =>
    obtain ⟨k0, v0⟩ := p
    by_cases hk : k0 = k
    · simp [CS.lookupAssocNat, hk] at h ⊢
      exact h
    · simp [CS.lookupAssocNat, hk] at h ⊢
      exact ih h

theorem lookupAssocNat_append_none {β : Type} {m : List (Nat × β)} {k : Nat}
    (k2 : Nat) (v2 : β) (h : CS.lookupAssocNat m k = none) :
    CS.lookupAssocNat (m ++ [(k2, v2)]) k =
      if k2 = k then some v2 else none := by
  induction m with
  | nil => simp [CS.lookupAssocNat]
  | cons p rest ih =>
    obtain ⟨k0, v0⟩ := p
    by_cases hk : k0 = k
    · simp [CS.lookupAssocNat, hk] at h
    · simp [CS.lookupAssocNat, hk] at h ⊢
      exact ih h

theorem lookupAssoc_mem {β : Type} {m : List (List String × β)}
    {k : List String} {v : β}
    (h : CS.lookupAssoc m k = some v) : (k, v) ∈ m := by
  induction m with
  | nil => simp [CS.lookupAssoc] at h
  | cons p rest ih =>
    obtain ⟨k0, v0⟩ := p
    by_cases hk : k0 = k
    · simp [CS.lookupAssoc, hk] at h
      simp [hk, h]
    · simp [CS.lookupAssoc, hk] at h
      exact List.mem_cons_of_mem _ (ih h)

theorem lookupAssoc_append_some {β : Type} {m : List (List String × β)}
    {k : List String} {v : β} (m2 : List (List String × β))
    (h : CS.lookupAssoc m k = some v) :
    CS.lookupAssoc (m ++ m2) k = some v := by
  induction m with
  | nil => simp [CS.lookupAssoc] at h
  | cons p rest ih =>
    obtain ⟨k0, v0⟩ := p
    by_cases hk : k0 = k
    · simp [CS.lookupAssoc, hk] at h ⊢
      exact h
    · simp [CS.lookupAssoc, hk] at h ⊢
      exact ih h

theorem lookupAssoc_append_none {β : Type} {m : List (List String × β)}
    {k : List String} (k2 : List String) (v2 : β)
    (h : CS.lookupAssoc m k = none) :
    CS.lookupAssoc (m ++ [(k2, v2)]) k =
      if k2 = k then some v2 else none := by
  induction m with
  | nil => simp [CS.lookupAssoc]
  | cons p rest ih =>
    obtain ⟨k0, v0⟩ := p
    by_cases hk : k0 = k
    · simp [CS.lookupAssoc, hk] at h
    · simp [CS.lookupAssoc, hk] at h ⊢
      exact ih h

theorem createArrayType_cache_hit (st : CS.CState) (of : Nat) (l : CLoc)
    {a : Nat} (h : CS.lookupAssocNat st.arrayTypeMap of = some a) :
    CS.createArrayType st of l = (st, a) := by
  unfold CS.createArrayType
  rw [h]

theorem createArrayType_cache_miss (st : CS.CState) (of : Nat) (l : CLoc)
    (h : CS.lookupAssocNat st.arrayTypeMap of = none) :
    (CS.createArrayType st of l).2 = st.types.length
    ∧ (CS.createArrayType st of l).1.arrayTypeMap
        = st.arrayTypeMap ++ [(of, st.types.length)]
    ∧ (CS.createArrayType st of l).1.types.length = st.types.length + 1 := by
  unfold CS.createArrayType
  rw [h]
  refine ⟨rfl, rfl, ?_⟩
  simp [CS.CState.updMod]

theorem createPointerType_cache_hit (st : CS.CState) (p : Nat) (l : CLoc)
    {a : Nat} (h : CS.lookupAssocNat st.pointerTypeMap p = some a) :
    CS.createPointerType st p l = (st, a) := by
  unfold CS.createPointerType
  rw [h]

theorem createPointerType_cache_miss (st : CS.CState) (p : Nat) (l : CLoc)
    (h : CS.lookupAssocNat st.pointerTypeMap p = none) :
    (CS.createPointerType st p l).2 = st.types.length
    ∧ (CS.createPointerType st p l).1.pointerTypeMap
        = st.pointerTypeMap ++ [(p, st.types.length)]
    ∧ (CS.createPointerType st p l).1.types.length = st.types.length + 1 := by
  unfold CS.createPointerType
  rw [h]
  refine ⟨rfl, rfl, ?_⟩
  simp [CS.CState.updMod]

theorem createSpecializedType_cache_hit (st : CS.CState) (g : Nat)
    (a : List Nat) (l : CLoc) {s : Nat}
    (h : CS.lookupAssoc st.specializedTypeMap (CS.specKey st g a) = some s) :
    CS.createSpecializedType st g a l = (st, s) := by
  unfold CS.createSpecializedType
  simp only [h]

theorem createSpecializedType_cache_miss (st : CS.CState) (g : Nat)
    (a : List Nat) (l : CLoc)
    (h : CS.lookupAssoc st.specializedTypeMap (CS.specKey st g a) = none) :
    (CS.createSpecializedType st g a l).2 = st.types.length
    ∧ (CS.createSpecializedType st g a l).1.specializedTypeMap
        = st.specializedTypeMap ++ [(CS.specKey st g a, st.types.length)]
    ∧ ∃ x, (CS.createSpecializedType st g a l).1.types = st.types ++ [x] := by
  refine ⟨?_, ?_, ?_⟩
  · unfold CS.createSpecializedType
    simp [h]
  · unfold CS.createSpecializedType
    simp [h, CS.CState.updMod]
  · refine ⟨{ name := (st.getType g).name
                ++ ("<" ++ String.join (a.map fun p => (st.getType p).qualifiedName) ++ ">"),
              qualifiedName := (st.getType g).qualifiedName
                ++ ("<" ++ String.join (a.map fun p => (st.getType p).qualifiedName) ++ ">"),
              ref := some g, kind := .specialized, owner := st.top.modIdx,
              scope := (st.getType g).scope, location := l, typeParams := a }, ?_⟩
    unfold CS.createSpecializedType
    simp [h, CS.CState.updMod]

theorem getType_of_types_append {st st1 : CS.CState} {ts : List CS.SType}
    (h : st1.types = st.types ++ ts) {i : Nat} (hi : i < st.types.length) :
    st1.getType i = st.getType i := by
  unfold CS.CState.getType
  rw [h, List.getD_append _ _ _ _ hi]

theorem specKey_of_types_append {st st1 : CS.CState} {ts : List CS.SType}
    (h : st1.types = st.types ++ ts) {g : Nat} {a : List Nat}
    (hg : g < st.types.length) (ha : ∀ p ∈ a, p < st.types.length) :
    CS.specKey st1 g a = CS.specKey st g a := by
  unfold CS.specKey
  rw [getType_of_types_append h hg]
  congr 1
  exact List.map_congr_left fun p hp => by
    rw [getType_of_types_append h (ha p hp)]
theorem presRfl (st : CS.CState) : Pres st st := ⟨rfl, rfl, rfl⟩

theorem presTrans {s2 s1 s0 : CS.CState} (h2 : Pres s2 s1) (h1 : Pres s1 s0) :
    Pres s2 s0 :=
  ⟨h2.1.trans h1.1, h2.2.1.trans h1.2.1, h2.2.2.trans h1.2.2⟩

theorem pres_updTop_imported (st : CS.CState) (g : CS.FState → List Nat) :
    Pres (st.updTop fun fs => { fs with importedTypes := g fs }) st := by
  rcases hst : st.stack with _ | ⟨t, rest⟩ <;>
    simp [Pres, CS.CState.updTop, CS.CState.top, hst]

theorem pres_updMod (st : CS.CState) (i : Nat) (f : CS.SModule → CS.SModule) :
    Pres (st.updMod i f) st := ⟨rfl, rfl, rfl⟩

theorem pres_foldl {α : Type} (g : CS.CState → α → CS.CState)
    (h : ∀ st a, Pres (g st a) st) :
    ∀ (l : List α) (st : CS.CState), Pres (l.foldl g st) st := by
  intro l
  induction l with
  | nil => intro st; exact presRfl st
  | cons a rest ih => intro st; exact presTrans (ih (g st a)) (h st a)

/-- The `makeAvailable` family touches neither the resolution cache, nor
the log, nor the stack depth. -/
theorem ma_pres : ∀ fuel : Nat,
    (∀ st t, Pres (CS.makeAvailable fuel st t).1 st)
    ∧ (∀ st i, Pres (CS.maRecurseType fuel st i) st)
    ∧ (∀ st f, Pres (CS.maRecurseField fuel st f) st)
    ∧ (∀ st m, Pres (CS.maRecurseMember fuel st m) st)
    ∧ (∀ st a, Pres (CS.maRecurseAnno fuel st a) st)
    ∧ (∀ st v, Pres (CS.maRecurseValue fuel st v) st) := by
  intro fuel
  induction fuel with
  | zero =>
      refine ⟨?_, ?_, ?_, ?_, ?_, ?_⟩ <;> intro st x <;> exact presRfl st
  | succ n ih =>
      obtain ⟨ihA, ihT, ihF, ihM, ihAn, ihV⟩ := ih
      refine ⟨?_, ?_, ?_, ?_, ?_, ?_⟩
      · intro st t
        cases t with
        | none => exact presRfl st
        | some i => exact ihT st i
      · intro st i
        unfold CS.maRecurseType
        dsimp only
        split
        · exact presRfl st
        · split
          · exact presRfl st
          · have hbase : Pres
                (List.foldl (fun st a => CS.maRecurseAnno n st a)
                  ((st.updTop fun fs =>
                      { fs with importedTypes := fs.importedTypes ++ [i] }).updMod
                    st.top.modIdx fun m => { m with types := m.types ++ [i] })
                  (st.getType i).annotations) st :=
              presTrans (pres_foldl _ ihAn _ _)
                (presTrans (pres_updMod _ _ _) (pres_updTop_imported _ _))
            split
            · exact presTrans (pres_foldl _ ihF _ _)
                (presTrans (ihA _ _) hbase)
            · exact presTrans (pres_foldl _ ihF _ _) hbase
            · exact presTrans (pres_foldl _ ihM _ _) hbase
            · exact presTrans (ihA _ _) hbase
            · exact presTrans (ihA _ _) hbase
            · exact presTrans (ihA _ _) hbase
            · exact presTrans (pres_foldl _ ihT _ _)
                (presTrans (ihA _ _) hbase)
            · exact hbase
      · intro st f
        unfold CS.maRecurseField
        rcases ht : f.typeIdx with _ | t <;> rcases hd : f.defaultValue with _ | v <;>
          simp only [ht, hd]
        · exact pres_foldl _ ihAn _ _
        · exact presTrans (pres_foldl _ ihAn _ _) (ihV _ _)
        · exact presTrans (pres_foldl _ ihAn _ _) (ihT _ _)
        · exact presTrans (pres_foldl _ ihAn _ _) (presTrans (ihV _ _) (ihT _ _))
      · intro st m
        unfold CS.maRecurseMember
        rcases ht : m.typeIdx with _ | t <;> simp only [ht]
        · exact pres_foldl _ ihAn _ _
        · exact presTrans (pres_foldl _ ihAn _ _) (ihT _ _)
      · intro st a
        unfold CS.maRecurseAnno
        rcases ht : a.typeIdx with _ | t <;> simp only [ht]
        · exact pres_foldl _ ihV _ _
        · exact presTrans (pres_foldl _ ihV _ _) (ihT _ _)
      · intro st v
        unfold CS.maRecurseValue
        cases v <;> first | exact ihA _ _ | exact presRfl st

/-- The `findLocal`/`findGlobal` family touches neither the resolution
cache, nor the log, nor the stack depth (its only state effects go
through `makeAvailable`). -/
theorem find_pres : ∀ fuel : Nat,
    (∀ st (q : CAst.QualId) scope, Pres (CS.findLocalNs fuel st q scope).1 st)
    ∧ (∀ st (q : CAst.QualId) children front,
        Pres (CS.findLocalNsChildren fuel st q children front).1 st)
    ∧ (∀ st (q : CAst.QualId) tys front,
        Pres (CS.findLocalNsTypes fuel st q tys front).1 st)
    ∧ (∀ st (q : CAst.QualId) scope, Pres (CS.findGlobalNs fuel st q scope).1 st)
    ∧ (∀ st (q : CAst.QualId) scope, Pres (CS.findGlobalType fuel st q scope).1 st)
    ∧ (∀ st (q : CAst.QualId) m, Pres (CS.findGlobalMod fuel st q m).1 st)
    ∧ (∀ st (q : CAst.QualId) imps,
        Pres (CS.findGlobalImports fuel st q imps).1 st) := by
  intro fuel
  induction fuel with
  | zero =>
      refine ⟨?_, ?_, ?_, ?_, ?_, ?_, ?_⟩ <;> intro st q x <;>
        first
        | exact presRfl st
        | (intro y; exact presRfl st)
  | succ n ih =>
      obtain ⟨ihL, ihC, ihTy, ihGN, ihGT, ihGM, ihGI⟩ := ih
      refine ⟨?_, ?_, ?_, ?_, ?_, ?_, ?_⟩
      · intro st q scope
        unfold CS.findLocalNs
        try dsimp only
        split
        · split
          · exact presRfl st
          · split
            · exact (ma_pres n).1 _ _
            · split
              · exact presRfl st
              · exact presRfl st
        · rcases hr : CS.findLocalNsChildren n st q (st.getNs scope).namespaces
              ((q.headD {}).id) with ⟨st2, rs2⟩
          have h2 : Pres st2 st := by
            have := ihC st q (st.getNs scope).namespaces ((q.headD {}).id)
            rw [hr] at this
            exact this
          cases rs2 with
          | empty =>
              try dsimp only
              exact presTrans (ihTy st2 q (st.getNs scope).types ((q.headD {}).id)) h2
          | type t => exact h2
          | constant c => exact h2
          | namespc n2 => exact h2
          | enumItem t j => exact h2
      · intro st q children front
        cases children with
        | nil => exact presRfl st
        | cons c rest =>
            unfold CS.findLocalNsChildren
            try dsimp only
            split
            · rcases hr : CS.findLocalNs n st (q.drop 1) c with ⟨st2, rs2⟩
              have h2 : Pres st2 st := by
                have := ihL st (q.drop 1) c
                rw [hr] at this
                exact this
              cases rs2 with
              | empty =>
                  try dsimp only
                  exact presTrans (ihC st2 q rest front) h2
              | type t => exact h2
              | constant c2 => exact h2
              | namespc n2 => exact h2
              | enumItem t j => exact h2
            · exact ihC st q rest front
      · intro st q tys front
        cases tys with
        | nil => exact presRfl st
        | cons t rest =>
            unfold CS.findLocalNsTypes
            try dsimp only
            split
            · split
              · exact ihTy st q rest front
              · exact (ma_pres n).1 _ _
            · exact ihTy st q rest front
      · intro st q scope
        unfold CS.findGlobalNs
        try dsimp only
        rcases hr : CS.findLocalNs n st q scope with ⟨st2, rs2⟩
        have h2 : Pres st2 st := by
          have := ihL st q scope
          rw [hr] at this
          exact this
        cases rs2 with
        | empty =>
            try dsimp only
            split
            · exact presTrans (ihGN st2 q _) h2
            · split
              · exact presTrans (ihGM st2 q _) h2
              · exact h2
        | type t => exact h2
        | constant c => exact h2
        | namespc n2 => exact h2
        | enumItem t j => exact h2
      · intro st q scope
        unfold CS.findGlobalType
        try dsimp only
        split
        · split
          · exact ihGN _ _ _
          · exact ihGM _ _ _
        · exact presRfl st
      · intro st q m
        unfold CS.findGlobalMod
        try dsimp only
        rcases hr : CS.findLocalNs n st q ((st.getMod m).root) with ⟨st2, rs2⟩
        have h2 : Pres st2 st := by
          have := ihL st q ((st.getMod m).root)
          rw [hr] at this
          exact this
        cases rs2 with
        | empty =>
            try dsimp only
            rcases hr2 : CS.findGlobalImports n st2 q ((st2.getMod m).imports)
              with ⟨st3, rs3⟩
            have h3 : Pres st3 st2 := by
              have := ihGI st2 q ((st2.getMod m).imports)
              rw [hr2] at this
              exact this
            cases rs3 with
            | empty =>
                try dsimp only
                split
                · exact presTrans (ihL st3 q _) (presTrans h3 h2)
                · exact presTrans h3 h2
            | type t => exact presTrans h3 h2
            | constant c => exact presTrans h3 h2
            | namespc n2 => exact presTrans h3 h2
            | enumItem t j => exact presTrans h3 h2
        | type t => exact h2
        | constant c => exact h2
        | namespc n2 => exact h2
        | enumItem t j => exact h2
      · intro st q imps
        cases imps with
        | nil => exact presRfl st
        | cons i rest =>
            unfold CS.findGlobalImports
            try dsimp only
            rcases hr : CS.findLocalNs n st q ((st.getMod i).root) with ⟨st2, rs2⟩
            have h2 : Pres st2 st := by
              have := ihL st q ((st.getMod i).root)
              rw [hr] at this
              exact this
            cases rs2 with
            | empty =>
                try dsimp only
                exact presTrans (ihGI st2 q rest) h2
            | type t => exact h2
            | constant c => exact h2
            | namespc n2 => exact h2
            | enumItem t j => exact h2

theorem stack_ne_nil_of_pres {st2 st : CS.CState} (hp : Pres st2 st)
    (h : st.stack ≠ []) : st2.stack ≠ [] := by
  intro hnil
  have hl := hp.2.2
  rw [hnil] at hl
  exact h (List.length_eq_zero.mp hl.symm)

theorem log_updTop (st : CS.CState) (f : CS.FState → CS.FState) :
    (st.updTop f).log = st.log := by
  unfold CS.CState.updTop
  rcases hst : st.stack with _ | ⟨t, rest⟩ <;> rfl

theorem updTop_stack_nil {st : CS.CState} (f : CS.FState → CS.FState)
    (h : st.stack = []) : st.updTop f = st := by
  unfold CS.CState.updTop
  rw [h]

theorem topCache_updTop_cons (st : CS.CState) (e : List String × CS.CResolve)
    (h : st.stack ≠ []) :
    (st.updTop fun fs =>
        { fs with resolveCache := e :: fs.resolveCache }).top.resolveCache
      = e :: st.top.resolveCache := by
  unfold CS.CState.updTop CS.CState.top
  rcases hst : st.stack with _ | ⟨t, rest⟩
  · exact absurd hst h
  · rfl

theorem lookup_cons_ne {β : Type} (k0 : List String) (v0 : β)
    (m : List (List String × β)) (k : List String) (h : ¬ k0 = k) :
    CS.lookupAssoc ((k0, v0) :: m) k = CS.lookupAssoc m k := by
  simp [CS.lookupAssoc, h]

/-- A non-empty resolution leaves its result in the top-of-stack cache
under the dotted-name key. -/
theorem resolve_caches (fuel : Nat) (st st1 : CS.CState) (q : CAst.QualId)
    (sc : Option Nat) (r : CS.CResolve) (hst : st.stack ≠ [])
    (hres : CS.resolve fuel st q sc = (st1, r)) (hne : r ≠ .empty) :
    CS.lookupAssoc st1.top.resolveCache (q.map fun x => x.id) = some r := by
  unfold CS.resolve at hres
  rcases hc : CS.lookupAssoc st.top.resolveCache (q.map fun x => x.id) with _ | rs
  · simp only [hc] at hres
    cases sc with
    | some t0 =>
        rcases hr : CS.findGlobalType fuel st q t0 with ⟨st2, rs2⟩
        have hpres : Pres st2 st := by
          have := (find_pres fuel).2.2.2.2.1 st q t0
          rw [hr] at this
          exact this
        have h2 : st2.stack ≠ [] := stack_ne_nil_of_pres hpres hst
        simp only [hr] at hres
        by_cases hrs : rs2 = CS.CResolve.empty
        · rw [hrs] at hres
          simp at hres
          exact absurd hres.2.symm hne
        · rw [if_pos hrs] at hres
          cases rs2 with
          | empty => exact absurd rfl hrs
          | type t2 =>
              injection hres with hA hB
              rw [← hA]
              have hma := (ma_pres fuel).1
                (st2.updTop fun fs =>
                  { fs with resolveCache :=
                      ((q.map fun x => x.id), CS.CResolve.type t2) :: fs.resolveCache })
                (some t2)
              rw [hma.1, topCache_updTop_cons _ _ h2, ← hB]
              simp [CS.lookupAssoc]
          | constant c =>
              injection hres with hA hB
              rw [← hA, topCache_updTop_cons _ _ h2, ← hB]
              simp [CS.lookupAssoc]
          | namespc n2 =>
              injection hres with hA hB
              rw [← hA, topCache_updTop_cons _ _ h2, ← hB]
              simp [CS.lookupAssoc]
          | enumItem t2 j =>
              injection hres with hA hB
              rw [← hA, topCache_updTop_cons _ _ h2, ← hB]
              simp [CS.lookupAssoc]
    | none =>
        rcases hr : CS.findGlobalMod fuel st q st.top.modIdx with ⟨st2, rs2⟩
        have hpres : Pres st2 st := by
          have := (find_pres fuel).2.2.2.2.2.1 st q st.top.modIdx
          rw [hr] at this
          exact this
        have h2 : st2.stack ≠ [] := stack_ne_nil_of_pres hpres hst
        simp only [hr] at hres
        by_cases hrs : rs2 = CS.CResolve.empty
        · rw [hrs] at hres
          simp at hres
          exact absurd hres.2.symm hne
        · rw [if_pos hrs] at hres
          cases rs2 with
          | empty => exact absurd rfl hrs
          | type t2 =>
              injection hres with hA hB
              rw [← hA]
              have hma := (ma_pres fuel).1
                (st2.updTop fun fs =>
                  { fs with resolveCache :=
                      ((q.map fun x => x.id), CS.CResolve.type t2) :: fs.resolveCache })
                (some t2)
              rw [hma.1, topCache_updTop_cons _ _ h2, ← hB]
              simp [CS.lookupAssoc]
          | constant c =>
              injection hres with hA hB
              rw [← hA, topCache_updTop_cons _ _ h2, ← hB]
              simp [CS.lookupAssoc]
          | namespc n2 =>
              injection hres with hA hB
              rw [← hA, topCache_updTop_cons _ _ h2, ← hB]
              simp [CS.lookupAssoc]
          | enumItem t2 j =>
              injection hres with hA hB
              rw [← hA, topCache_updTop_cons _ _ h2, ← hB]
              simp [CS.lookupAssoc]
  · simp only [hc] at hres
    injection hres with hA hB
    rw [← hA, ← hB]
    exact hc

/-- `Compiler::resolve` never logs: its only state effects are the cache
insertion and `makeAvailable`. -/
theorem resolve_log (fuel : Nat) (st : CS.CState) (q : CAst.QualId)
    (sc : Option Nat) : (CS.resolve fuel st q sc).1.log = st.log := by
  unfold CS.resolve
  rcases hc : CS.lookupAssoc st.top.resolveCache (q.map fun x => x.id) with _ | rs
  · simp only [hc]
    cases sc with
    | some t0 =>
        rcases hr : CS.findGlobalType fuel st q t0 with ⟨st2, rs2⟩
        have hpres : Pres st2 st := by
          have := (find_pres fuel).2.2.2.2.1 st q t0
          rw [hr] at this
          exact this
        simp only [hr]
        cases rs2 with
        | empty => simpa using hpres.2.1
        | type t2 =>
            dsimp only
            rw [if_pos (show CS.CResolve.type t2 ≠ CS.CResolve.empty by simp)]
            have hma := (ma_pres fuel).1
              (st2.updTop fun fs =>
                { fs with resolveCache :=
                    ((q.map fun x => x.id), CS.CResolve.type t2) :: fs.resolveCache })
              (some t2)
            rw [hma.2.1, log_updTop]
            exact hpres.2.1
        | constant c =>
            dsimp only
            rw [if_pos (show CS.CResolve.constant c ≠ CS.CResolve.empty by simp),
              log_updTop]
            exact hpres.2.1
        | namespc n2 =>
            dsimp only
            rw [if_pos (show CS.CResolve.namespc n2 ≠ CS.CResolve.empty by simp),
              log_updTop]
            exact hpres.2.1
        | enumItem t2 j =>
            dsimp only
            rw [if_pos (show CS.CResolve.enumItem t2 j ≠ CS.CResolve.empty by simp),
              log_updTop]
            exact hpres.2.1
    | none =>
        rcases hr : CS.findGlobalMod fuel st q st.top.modIdx with ⟨st2, rs2⟩
        have hpres : Pres st2 st := by
          have := (find_pres fuel).2.2.2.2.2.1 st q st.top.modIdx
          rw [hr] at this
          exact this
        simp only [hr]
        cases rs2 with
        | empty => simpa using hpres.2.1
        | type t2 =>
            dsimp only
            rw [if_pos (show CS.CResolve.type t2 ≠ CS.CResolve.empty by simp)]
            have hma := (ma_pres fuel).1
              (st2.updTop fun fs =>
                { fs with resolveCache :=
                    ((q.map fun x => x.id), CS.CResolve.type t2) :: fs.resolveCache })
              (some t2)
            rw [hma.2.1, log_updTop]
            exact hpres.2.1
        | constant c =>
            dsimp only
            rw [if_pos (show CS.CResolve.constant c ≠ CS.CResolve.empty by simp),
              log_updTop]
            exact hpres.2.1
        | namespc n2 =>
            dsimp only
            rw [if_pos (show CS.CResolve.namespc n2 ≠ CS.CResolve.empty by simp),
              log_updTop]
            exact hpres.2.1
        | enumItem t2 j =>
            dsimp only
            rw [if_pos (show CS.CResolve.enumItem t2 j ≠ CS.CResolve.empty by simp),
              log_updTop]
            exact hpres.2.1
  · simp [hc]

/-- C6: within a module, qualified-name resolution is memoized: a cache
hit returns the cached result with the state untouched; once a resolve
returns a non-empty result, any later resolve of the same identifier in
the same frame returns exactly that result (whatever fuel and starting
scope); and no resolve ever evicts an existing cache entry. -/
theorem c6_resolution_memoized :
    (∀ (fuel : Nat) (st : CS.CState) (q : CAst.QualId) (sc : Option Nat)
        (r : CS.CResolve),
       CS.lookupAssoc st.top.resolveCache (q.map fun x => x.id) = some r →
       CS.resolve fuel st q sc = (st, r))
    ∧ (∀ (fuel fuel2 : Nat) (st : CS.CState) (q : CAst.QualId)
        (sc sc2 : Option Nat) (st1 : CS.CState) (r : CS.CResolve),
       st.stack ≠ [] →
       CS.resolve fuel st q sc = (st1, r) → r ≠ .empty →
       CS.resolve fuel2 st1 q sc2 = (st1, r))
    ∧ (∀ (fuel : Nat) (st : CS.CState) (q : CAst.QualId) (sc : Option Nat)
        (k : List String) (r0 : CS.CResolve),
       CS.lookupAssoc st.top.resolveCache k = some r0 →
       CS.lookupAssoc (CS.resolve fuel st q sc).1.top.resolveCache k
         = some r0) := by
  refine ⟨?_, ?_, ?_⟩
  · intro fuel st q sc r h
    unfold CS.resolve
    simp only [h]
  · intro fuel fuel2 st q sc sc2 st1 r hst hres hne
    have hcache := resolve_caches fuel st st1 q sc r hst hres hne
    unfold CS.resolve
    simp only [hcache]
  · intro fuel st q sc k r0 h0
    unfold CS.resolve
    rcases hc : CS.lookupAssoc st.top.resolveCache (q.map fun x => x.id) with _ | rs
    · simp only [hc]
      have hkk : ¬((q.map fun x => x.id) = k) := by
        intro he
        rw [he, h0] at hc
        exact Option.noConfusion hc
      cases sc with
      | some t0 =>
          rcases hr : CS.findGlobalType fuel st q t0 with ⟨st2, rs2⟩
          have hpres : Pres st2 st := by
            have := (find_pres fuel).2.2.2.2.1 st q t0
            rw [hr] at this
            exact this
          have h0b : CS.lookupAssoc st2.top.resolveCache k = some r0 := by
            rw [hpres.1]
            exact h0
          simp only [hr]
          cases rs2 with
          | empty => simpa using h0b
          | type t2 =>
              dsimp only
              rw [if_pos (show CS.CResolve.type t2 ≠ CS.CResolve.empty by simp)]
              have hma := (ma_pres fuel).1
                (st2.updTop fun fs =>
                  { fs with resolveCache :=
                      ((q.map fun x => x.id), CS.CResolve.type t2) :: fs.resolveCache })
                (some t2)
              rw [hma.1]
              rcases hstk : st2.stack with _ | ⟨tt, rest⟩
              · rw [updTop_stack_nil _ hstk]
                exact h0b
              · rw [topCache_updTop_cons _ _ (by rw [hstk]; exact List.cons_ne_nil _ _),
                  lookup_cons_ne _ _ _ _ hkk]
                exact h0b
          | constant c =>
              dsimp only
              rw [if_pos (show CS.CResolve.constant c ≠ CS.CResolve.empty by simp)]
              rcases hstk : st2.stack with _ | ⟨tt, rest⟩
              · rw [updTop_stack_nil _ hstk]
                exact h0b
              · rw [topCache_updTop_cons _ _ (by rw [hstk]; exact List.cons_ne_nil _ _),
                  lookup_cons_ne _ _ _ _ hkk]
                exact h0b
          | namespc n2 =>
              dsimp only
              rw [if_pos (show CS.CResolve.namespc n2 ≠ CS.CResolve.empty by simp)]
              rcases hstk : st2.stack with _ | ⟨tt, rest⟩
              · rw [updTop_stack_nil _ hstk]
                exact h0b
              · rw [topCache_updTop_cons _ _ (by rw [hstk]; exact List.cons_ne_nil _ _),
                  lookup_cons_ne _ _ _ _ hkk]
                exact h0b
          | enumItem t2 j =>
              dsimp only
              rw [if_pos (show CS.CResolve.enumItem t2 j ≠ CS.CResolve.empty by simp)]
              rcases hstk : st2.stack with _ | ⟨tt, rest⟩
              · rw [updTop_stack_nil _ hstk]
                exact h0b
              · rw [topCache_updTop_cons _ _ (by rw [hstk]; exact List.cons_ne_nil _ _),
                  lookup_cons_ne _ _ _ _ hkk]
                exact h0b
      | none =>
          rcases hr : CS.findGlobalMod fuel st q st.top.modIdx with ⟨st2, rs2⟩
          have hpres : Pres st2 st := by
            have := (find_pres fuel).2.2.2.2.2.1 st q st.top.modIdx
            rw [hr] at this
            exact this
          have h0b : CS.lookupAssoc st2.top.resolveCache k = some r0 := by
            rw [hpres.1]
            exact h0
          simp only [hr]
          cases rs2 with
          | empty => simpa using h0b
          | type t2 =>
              dsimp only
              rw [if_pos (show CS.CResolve.type t2 ≠ CS.CResolve.empty by simp)]
              have hma := (ma_pres fuel).1
                (st2.updTop fun fs =>
                  { fs with resolveCache :=
                      ((q.map fun x => x.id), CS.CResolve.type t2) :: fs.resolveCache })
                (some t2)
              rw [hma.1]
              rcases hstk : st2.stack with _ | ⟨tt, rest⟩
              · rw [updTop_stack_nil _ hstk]
                exact h0b
              · rw [topCache_updTop_cons _ _ (by rw [hstk]; exact List.cons_ne_nil _ _),
                  lookup_cons_ne _ _ _ _ hkk]
                exact h0b
          | constant c =>
              dsimp only
              rw [if_pos (show CS.CResolve.constant c ≠ CS.CResolve.empty by simp)]
              rcases hstk : st2.stack with _ | ⟨tt, rest⟩
              · rw [updTop_stack_nil _ hstk]
                exact h0b
              · rw [topCache_updTop_cons _ _ (by rw [hstk]; exact List.cons_ne_nil _ _),
                  lookup_cons_ne _ _ _ _ hkk]
                exact h0b
          | namespc n2 =>
              dsimp only
              rw [if_pos (show CS.CResolve.namespc n2 ≠ CS.CResolve.empty by simp)]
              rcases hstk : st2.stack with _ | ⟨tt, rest⟩
              · rw [updTop_stack_nil _ hstk]
                exact h0b
              · rw [topCache_updTop_cons _ _ (by rw [hstk]; exact List.cons_ne_nil _ _),
                  lookup_cons_ne _ _ _ _ hkk]
                exact h0b
          | enumItem t2 j =>
              dsimp only
              rw [if_pos (show CS.CResolve.enumItem t2 j ≠ CS.CResolve.empty by simp)]
              rcases hstk : st2.stack with _ | ⟨tt, rest⟩
              · rw [updTop_stack_nil _ hstk]
                exact h0b
              · rw [topCache_updTop_cons _ _ (by rw [hstk]; exact List.cons_ne_nil _ _),
                  lookup_cons_ne _ _ _ _ hkk]
                exact h0b
    · simp only [hc]
      exact h0

/-- Witness for `c6_resolution_memoized`: in the one-struct state, the
resolution of `T` succeeds, and resolving `T` again — with different fuel
and starting from the struct scope instead of the module — returns the
identical state and result. -/
theorem c6_resolution_memoized_witness :
    c6State.stack ≠ []
    ∧ (CS.resolve 10 c6State [iden "T"] none).2 ≠ CS.CResolve.empty
    ∧ CS.resolve 5 (CS.resolve 10 c6State [iden "T"] none).1 [iden "T"] (some 0)
        = ((CS.resolve 10 c6State [iden "T"] none).1,
           (CS.resolve 10 c6State [iden "T"] none).2) := by
  have hstack : c6State.stack ≠ [] := by simp [c6State]
  have hne : (CS.resolve 10 c6State [iden "T"] none).2 ≠ CS.CResolve.empty := by
    decide
  exact ⟨hstack, hne,
    c6_resolution_memoized.2.1 10 5 c6State [iden "T"] none (some 0)
      (CS.resolve 10 c6State [iden "T"] none).1
      (CS.resolve 10 c6State [iden "T"] none).2 hstack rfl hne⟩
theorem logExtRfl (st : CS.CState) : LogExt st st := ⟨[], by simp⟩

theorem logExtTrans {s0 s1 s2 : CS.CState} (h1 : LogExt s0 s1)
    (h2 : LogExt s1 s2) : LogExt s0 s2 := by
  obtain ⟨t1, e1⟩ := h1
  obtain ⟨t2, e2⟩ := h2
  exact ⟨t1 ++ t2, by rw [e2, e1, List.append_assoc]⟩

theorem logExt_logError (st : CS.CState) (l : CLoc) (m : String) :
    LogExt st (st.logError l m) := ⟨_, rfl⟩

theorem logExt_logInfo (st : CS.CState) (l : CLoc) (m : String) :
    LogExt st (st.logInfo l m) := ⟨_, rfl⟩

theorem logExt_of_eq {s0 s1 : CS.CState} (h : s1.log = s0.log) :
    LogExt s0 s1 := ⟨[], by simp [h]⟩

theorem errCount_le_of_logExt {s0 s1 : CS.CState} (h : LogExt s0 s1) :
    s0.errCount ≤ s1.errCount := by
  obtain ⟨t, e⟩ := h
  simp [CS.CState.errCount, e, List.filter_append]

theorem errCount_logError (st : CS.CState) (loc : CLoc) (msg : String) :
    (st.logError loc msg).errCount = st.errCount + 1 := by
  simp [CS.CState.logError, CS.CState.errCount, List.filter_append]

theorem errCount_logInfo (st : CS.CState) (loc : CLoc) (msg : String) :
    (st.logInfo loc msg).errCount = st.errCount := by
  simp [CS.CState.logInfo, CS.CState.errCount, List.filter_append]

/-- Literal translation only appends to the log. -/
theorem tl_logext : ∀ fuel : Nat,
    (∀ st lit, LogExt st (CS.translateLit fuel st lit).1)
    ∧ (∀ st elems, LogExt st (CS.translateLitList fuel st elems).1) := by
  intro fuel
  induction fuel with
  | zero => exact ⟨fun st _ => logExtRfl st, fun st _ => logExtRfl st⟩
  | succ n ih =>
      obtain ⟨ihL, ihLL⟩ := ih
      constructor
      · intro st lit
        cases lit with
        | lnull loc => exact logExtRfl st
        | lbool loc b => exact logExtRfl st
        | lint loc i => exact logExtRfl st
        | lstr loc s => exact logExtRfl st
        | lid loc q =>
            unfold CS.translateLit
            rcases hres : CS.resolve n st q none with ⟨st2, rs⟩
            have hlog : st2.log = st.log := by
              have := resolve_log n st q none
              rw [hres] at this
              exact this
            simp only [hres]
            cases rs with
            | empty =>
                exact logExtTrans (logExt_of_eq hlog) (logExt_logError _ _ _)
            | type t => exact logExt_of_eq hlog
            | constant c => exact logExt_of_eq hlog
            | namespc n2 =>
                exact logExtTrans (logExt_of_eq hlog)
                  (logExtTrans (logExt_logError _ _ _) (logExt_logInfo _ _ _))
            | enumItem t j => exact logExt_of_eq hlog
        | llist loc elems =>
            unfold CS.translateLit
            rcases hll : CS.translateLitList n st elems with ⟨st2, vs⟩
            have hx : LogExt st st2 := by
              have := ihLL st elems
              rw [hll] at this
              exact this
            simp only [hll]
            exact hx
      · intro st elems
        cases elems with
        | nil => exact logExtRfl st
        | cons e rest =>
            unfold CS.translateLitList
            rcases h1 : CS.translateLit n st e with ⟨st2, v⟩
            have hx1 : LogExt st st2 := by
              have := ihL st e
              rw [h1] at this
              exact this
            simp only [h1]
            rcases h2 : CS.translateLitList n st2 rest with ⟨st3, vs⟩
            have hx2 : LogExt st2 st3 := by
              have := ihLL st2 rest
              rw [h2] at this
              exact this
            simp only [h2]
            exact logExtTrans hx1 hx2

/-- `bindArgs` always produces exactly one value per attribute field. -/
theorem bindArgs_length (fuel : Nat) (loc : CLoc) :
    ∀ (flds : List CS.SField) (args : List CAst.Literal) (st : CS.CState),
    (CS.bindArgs fuel st loc args flds).2.length = flds.length := by
  intro flds
  induction flds with
  | nil => intro args st; rfl
  | cons f rest ih =>
      intro args st
      cases args with
      | nil =>
          unfold CS.bindArgs
          cases hd : f.defaultValue with
          | some d =>
              simp only [hd]
              rcases hb : CS.bindArgs fuel st loc [] rest with ⟨st2, vs⟩
              simp only [hb]
              have := ih [] st
              rw [hb] at this
              simp [this]
          | none =>
              simp only [hd]
              rcases hb : CS.bindArgs fuel
                  (st.logError loc ("missing parameter " ++ f.name)) loc [] rest
                with ⟨st2, vs⟩
              simp only [hb]
              have := ih [] (st.logError loc ("missing parameter " ++ f.name))
              rw [hb] at this
              simp [this]
      | cons a args2 =>
          unfold CS.bindArgs
          rcases ht : CS.translateLit fuel st a with ⟨st2, v⟩
          simp only [ht]
          rcases hb : CS.bindArgs fuel st2 loc args2 rest with ⟨st3, vs⟩
          simp only [hb]
          have := ih args2 st2
          rw [hb] at this
          simp [this]

/-- With no positional arguments left, every remaining field binds its
default when present and a null value otherwise. -/
theorem bindArgs_nil_args (fuel : Nat) (loc : CLoc) :
    ∀ (flds : List CS.SField) (st : CS.CState),
    (CS.bindArgs fuel st loc [] flds).2
      = flds.map fun f => f.defaultValue.getD (CS.SValue.vnull {}) := by
  intro flds
  induction flds with
  | nil => intro st; rfl
  | cons f rest ih =>
      intro st
      unfold CS.bindArgs
      cases hd : f.defaultValue with
      | some d =>
          simp only [hd]
          rcases hb : CS.bindArgs fuel st loc [] rest with ⟨st2, vs⟩
          simp only [hb]
          have := ih st
          rw [hb] at this
          simp [hd]
          exact this
      | none =>
          simp only [hd]
          rcases hb : CS.bindArgs fuel
              (st.logError loc ("missing parameter " ++ f.name)) loc [] rest
            with ⟨st2, vs⟩
          simp only [hb]
          have := ih (st.logError loc ("missing parameter " ++ f.name))
          rw [hb] at this
          simp [hd]
          exact this

/-- The first `args.length` bound values are the positional arguments
translated in order. -/
theorem bindArgs_take (fuel : Nat) (loc : CLoc) :
    ∀ (args : List CAst.Literal) (flds : List CS.SField) (st : CS.CState),
    args.length ≤ flds.length →
    (CS.bindArgs fuel st loc args flds).2.take args.length
      = translatedArgs fuel st args := by
  intro args
  induction args with
  | nil => intro flds st h; simp [translatedArgs]
  | cons a args2 ih =>
      intro flds st h
      cases flds with
      | nil => simp at h
      | cons f rest =>
          unfold CS.bindArgs
          rcases ht : CS.translateLit fuel st a with ⟨st2, v⟩
          simp only [ht]
          rcases hb : CS.bindArgs fuel st2 loc args2 rest with ⟨st3, vs⟩
          simp only [hb]
          have hlen : args2.length ≤ rest.length := by simpa using h
          have := ih rest st2 hlen
          rw [hb] at this
          simp [translatedArgs, ht, this]

/-- The values beyond the positional arguments are the remaining fields'
defaults (null when absent). -/
theorem bindArgs_drop (fuel : Nat) (loc : CLoc) :
    ∀ (args : List CAst.Literal) (flds : List CS.SField) (st : CS.CState),
    args.length ≤ flds.length →
    (CS.bindArgs fuel st loc args flds).2.drop args.length
      = (flds.drop args.length).map
          fun f => f.defaultValue.getD (CS.SValue.vnull {}) := by
  intro args
  induction args with
  | nil => intro flds st h; simp [bindArgs_nil_args fuel loc flds st]
  | cons a args2 ih =>
      intro flds st h
      cases flds with
      | nil => simp at h
      | cons f rest =>
          unfold CS.bindArgs
          rcases ht : CS.translateLit fuel st a with ⟨st2, v⟩
          simp only [ht]
          rcases hb : CS.bindArgs fuel st2 loc args2 rest with ⟨st3, vs⟩
          simp only [hb]
          have hlen : args2.length ≤ rest.length := by simpa using h
          have := ih rest st2 hlen
          rw [hb] at this
          simpa using this

/-- `bindArgs` only appends to the log. -/
theorem bindArgs_logExt (fuel : Nat) (loc : CLoc) :
    ∀ (flds : List CS.SField) (args : List CAst.Literal) (st : CS.CState),
    LogExt st (CS.bindArgs fuel st loc args flds).1 := by
  intro flds
  induction flds with
  | nil => intro args st; exact logExtRfl st
  | cons f rest ih =>
      intro args st
      cases args with
      | cons a args2 =>
          unfold CS.bindArgs
          rcases ht : CS.translateLit fuel st a with ⟨st2, v⟩
          have h1 : LogExt st st2 := by
            have := (tl_logext fuel).1 st a
            rw [ht] at this
            exact this
          simp only [ht]
          rcases hb : CS.bindArgs fuel st2 loc args2 rest with ⟨st3, vs⟩
          have h2 : LogExt st2 st3 := by
            have := ih args2 st2
            rw [hb] at this
            exact this
          simp only [hb]
          exact logExtTrans h1 h2
      | nil =>
          unfold CS.bindArgs
          cases hd : f.defaultValue with
          | some d =>
              simp only [hd]
              rcases hb : CS.bindArgs fuel st loc [] rest with ⟨st2, vs⟩
              have h2 : LogExt st st2 := by
                have := ih [] st
                rw [hb] at this
                exact this
              simp only [hb]
              exact h2
          | none =>
              simp only [hd]
              rcases hb : CS.bindArgs fuel
                  (st.logError loc ("missing parameter " ++ f.name)) loc [] rest
                with ⟨st2, vs⟩
              have h2 : LogExt (st.logError loc ("missing parameter " ++ f.name)) st2 := by
                have := ih [] (st.logError loc ("missing parameter " ++ f.name))
                rw [hb] at this
                exact this
              simp only [hb]
              exact logExtTrans (logExt_logError _ _ _) h2

/-- A remaining field without a default forces a logged error. -/
theorem bindArgs_missing_err (fuel : Nat) (loc : CLoc) :
    ∀ (flds : List CS.SField) (args : List CAst.Literal) (st : CS.CState),
    args.length ≤ flds.length →
    (∃ f ∈ flds.drop args.length, f.defaultValue = none) →
    st.errCount < (CS.bindArgs fuel st loc args flds).1.errCount := by
  intro flds
  induction flds with
  | nil =>
      intro args st h hex
      rw [List.drop_nil] at hex
      simp at hex
  | cons f rest ih =>
      intro args st h hex
      cases args with
      | cons a args2 =>
          unfold CS.bindArgs
          rcases ht : CS.translateLit fuel st a with ⟨st2, v⟩
          have h1 : st.errCount ≤ st2.errCount := by
            have hx := (tl_logext fuel).1 st a
            rw [ht] at hx
            exact errCount_le_of_logExt hx
          simp only [ht]
          rcases hb : CS.bindArgs fuel st2 loc args2 rest with ⟨st3, vs⟩
          have hlen : args2.length ≤ rest.length := by simpa using h
          have hex2 : ∃ g ∈ rest.drop args2.length, g.defaultValue = none := by
            simpa using hex
          have h2 : st2.errCount < st3.errCount := by
            have := ih args2 st2 hlen hex2
            rw [hb] at this
            exact this
          simp only [hb]
          exact lt_of_le_of_lt h1 h2
      | nil =>
          unfold CS.bindArgs
          cases hd : f.defaultValue with
          | some d =>
              simp only [hd]
              rcases hb : CS.bindArgs fuel st loc [] rest with ⟨st2, vs⟩
              have hex2 : ∃ g ∈ rest, g.defaultValue = none := by
                rcases hex with ⟨g, hg, hgn⟩
                simp at hg
                rcases hg with hgf | hgr
                · rw [hgf, hd] at hgn
                  exact Option.noConfusion hgn
                · exact ⟨g, hgr, hgn⟩
              have h2 := ih [] st (Nat.zero_le _) (by simpa using hex2)
              rw [hb] at h2
              simp only [hb]
              exact h2
          | none =>
              simp only [hd]
              rcases hb : CS.bindArgs fuel
                  (st.logError loc ("missing parameter " ++ f.name)) loc [] rest
                with ⟨st2, vs⟩
              have hle : (st.logError loc ("missing parameter " ++ f.name)).errCount
                  ≤ st2.errCount := by
                have := bindArgs_logExt fuel loc rest []
                  (st.logError loc ("missing parameter " ++ f.name))
                rw [hb] at this
                exact errCount_le_of_logExt this
              simp only [hb]
              calc st.errCount < st.errCount + 1 := Nat.lt_succ_self _
                _ = (st.logError loc ("missing parameter " ++ f.name)).errCount :=
                    (errCount_logError st loc _).symm
                _ ≤ st2.errCount := hle

/-- On a successful type lookup `requireType` logs nothing. -/
theorem requireTypeQ_some_log {fuel : Nat} {st st1 : CS.CState}
    {q : CAst.QualId} {sc : Option Nat} {t : Nat}
    (h : CS.requireTypeQ fuel st q sc = (st1, some t)) : st1.log = st.log := by
  unfold CS.requireTypeQ at h
  rcases hres : CS.resolve fuel st q sc with ⟨st2, rs⟩
  have hlog : st2.log = st.log := by
    have := resolve_log fuel st q sc
    rw [hres] at this
    exact this
  simp only [hres] at h
  cases rs with
  | empty => simp at h
  | type t2 =>
      injection h with hA hB
      rw [← hA]
      exact hlog
  | constant c =>
      injection h with hA hB
      exact Option.noConfusion hB
  | namespc n2 =>
      injection h with hA hB
      exact Option.noConfusion hB
  | enumItem t2 j =>
      injection h with hA hB
      exact Option.noConfusion hB

/-- C5: once the annotation's name resolves to an attribute type,
positional arguments bind to the attribute fields in order; more
arguments than fields is an error (and binds nothing); otherwise the
bound list pads trailing fields from their defaults, a missing default
logs an error, and the bound argument list always has exactly as many
entries as the attribute has fields — in particular whenever translation
adds no diagnostic. -/
theorem c5_annotation_args_bound (fuel : Nat) (st st1 : CS.CState)
    (anno : CAst.Annotation) (t : Nat)
    (hreq : CS.requireTypeQ fuel st anno.name none = (st1, some t))
    (hattr : (st1.getType t).kind = CS.TKind.attr) :
    (CS.translateAnno fuel st anno).2.typeIdx = some t
    ∧ ((st1.getType t).fields.length < anno.args.length →
        (CS.translateAnno fuel st anno).2.args = []
        ∧ (CS.translateAnno fuel st anno).1.errCount = st.errCount + 1)
    ∧ (anno.args.length ≤ (st1.getType t).fields.length →
        (CS.translateAnno fuel st anno).2.args.length
            = (st1.getType t).fields.length
        ∧ (CS.translateAnno fuel st anno).2.args.take anno.args.length
            = translatedArgs fuel st1 anno.args
        ∧ (CS.translateAnno fuel st anno).2.args.drop anno.args.length
            = ((st1.getType t).fields.drop anno.args.length).map
                (fun f => f.defaultValue.getD (CS.SValue.vnull {}))
        ∧ ((∃ f ∈ (st1.getType t).fields.drop anno.args.length,
              f.defaultValue = none) →
            st.errCount < (CS.translateAnno fuel st anno).1.errCount))
    ∧ ((CS.translateAnno fuel st anno).1.errCount = st.errCount →
        (CS.translateAnno fuel st anno).2.args.length
            = (st1.getType t).fields.length) := by
  have hlog1 : st1.log = st.log := requireTypeQ_some_log hreq
  have herr1 : st1.errCount = st.errCount := by
    simp [CS.CState.errCount, hlog1]
  by_cases hgt : (st1.getType t).fields.length < anno.args.length
  · have heq : CS.translateAnno fuel st anno
        = ((st1.logError (((anno.name.headD {}).loc).merge ((anno.name.getLastD {}).loc))
              ("too many arguments for attribute " ++ (st1.getType t).name)).logInfo
             ((st1.logError (((anno.name.headD {}).loc).merge ((anno.name.getLastD {}).loc))
              ("too many arguments for attribute " ++ (st1.getType t).name)).getType t).location
             (((st1.logError (((anno.name.headD {}).loc).merge ((anno.name.getLastD {}).loc))
              ("too many arguments for attribute " ++ (st1.getType t).name)).getType t).name ++ ": attribute declared here"),
           { typeIdx := some t,
             location := (((anno.name.headD {}).loc).merge ((anno.name.getLastD {}).loc)) }) := by
      unfold CS.translateAnno
      simp only [hreq]
      rw [if_neg (by simp [hattr]), if_pos hgt]
    refine ⟨?_, ?_, ?_, ?_⟩
    · rw [heq]
    · intro h2
      rw [heq]
      refine ⟨rfl, ?_⟩
      rw [errCount_logInfo, errCount_logError, herr1]
    · intro hle
      exact absurd hgt (Nat.not_lt.mpr hle)
    · intro herr
      rw [heq, errCount_logInfo, errCount_logError, herr1] at herr
      exact absurd herr (Nat.succ_ne_self _)
  · have hle : anno.args.length ≤ (st1.getType t).fields.length :=
      Nat.le_of_not_lt hgt
    rcases hb : CS.bindArgs fuel st1
        (((anno.name.headD {}).loc).merge ((anno.name.getLastD {}).loc))
        anno.args (st1.getType t).fields with ⟨st2, vs⟩
    have heq : CS.translateAnno fuel st anno
        = (st2,
           { typeIdx := some t,
             location :=
               ((anno.name.headD {}).loc).merge ((anno.name.getLastD {}).loc),
             args := vs }) := by
      unfold CS.translateAnno
      simp only [hreq]
      rw [if_neg (by simp [hattr]), if_neg hgt]
      simp only [hb]
    have hlen : vs.length = (st1.getType t).fields.length := by
      have := bindArgs_length fuel
        (((anno.name.headD {}).loc).merge ((anno.name.getLastD {}).loc))
        (st1.getType t).fields anno.args st1
      rw [hb] at this
      exact this
    refine ⟨?_, ?_, ?_, ?_⟩
    · rw [heq]
    · intro h2
      exact absurd h2 hgt
    · intro hle2
      refine ⟨?_, ?_, ?_, ?_⟩
      · rw [heq]
        exact hlen
      · rw [heq]
        have := bindArgs_take fuel
          (((anno.name.headD {}).loc).merge ((anno.name.getLastD {}).loc))
          anno.args (st1.getType t).fields st1 hle2
        rw [hb] at this
        exact this
      · rw [heq]
        have := bindArgs_drop fuel
          (((anno.name.headD {}).loc).merge ((anno.name.getLastD {}).loc))
          anno.args (st1.getType t).fields st1 hle2
        rw [hb] at this
        exact this
      · intro hex
        rw [heq]
        have := bindArgs_missing_err fuel
          (((anno.name.headD {}).loc).merge ((anno.name.getLastD {}).loc))
          (st1.getType t).fields anno.args st1 hle2 hex
        rw [hb] at this
        rw [← herr1]
        exact this
    · intro herr
      rw [heq]
      exact hlen

/-- C2 (amended): derived types are interned with one schema type per key,
but the keys are: the pointee identity for pointers, the element identity
alone for arrays (the optional fixed size takes no part), and the
qualified-name sequence of the generic and the ordered arguments for
specializations.  Under the interning-map invariants (cached indices point
at allocated types, distinct keys cache distinct types), a second creation
returns the identical type object exactly when the keys agree. -/
theorem c2_derived_types_interned_by_key (st : CS.CState)
    (of1 of2 p1 p2 g1 g2 : Nat) (a1 a2 : List Nat) (l1 l2 : CLoc)
    (hab : natMapBound st.arrayTypeMap st.types.length)
    (hai : natMapInj st.arrayTypeMap)
    (hpb : natMapBound st.pointerTypeMap st.types.length)
    (hpi : natMapInj st.pointerTypeMap)
    (hsb : strMapBound st.specializedTypeMap st.types.length)
    (hsi : strMapInj st.specializedTypeMap)
    (hg : g2 < st.types.length)
    (ha : ∀ p ∈ a2, p < st.types.length) :
    ((CS.createArrayType (CS.createArrayType st of1 l1).1 of2 l2).2
        = (CS.createArrayType st of1 l1).2 ↔ of2 = of1)
    ∧ ((CS.createPointerType (CS.createPointerType st p1 l1).1 p2 l2).2
        = (CS.createPointerType st p1 l1).2 ↔ p2 = p1)
    ∧ ((CS.createSpecializedType
          (CS.createSpecializedType st g1 a1 l1).1 g2 a2 l2).2
        = (CS.createSpecializedType st g1 a1 l1).2
       ↔ CS.specKey st g2 a2 = CS.specKey st g1 a1) := by
  refine ⟨?_, ?_, ?_⟩
  · -- arrays
    rcases h1 : CS.lookupAssocNat st.arrayTypeMap of1 with _ | a
    · obtain ⟨hv1, hm1, ht1⟩ := createArrayType_cache_miss st of1 l1 h1
      by_cases he : of2 = of1
      · subst he
        have hl2 : CS.lookupAssocNat
            (CS.createArrayType st of2 l1).1.arrayTypeMap of2
            = some st.types.length := by
          rw [hm1, lookupAssocNat_append_none of2 st.types.length h1]
          simp
        have hv2 : (CS.createArrayType (CS.createArrayType st of2 l1).1 of2 l2).2
            = st.types.length := by
          rw [createArrayType_cache_hit _ of2 l2 hl2]
        rw [hv2, hv1]
        simp
      · rcases h2 : CS.lookupAssocNat st.arrayTypeMap of2 with _ | b
        · have hl2 : CS.lookupAssocNat
              (CS.createArrayType st of1 l1).1.arrayTypeMap of2 = none := by
            rw [hm1, lookupAssocNat_append_none of1 st.types.length h2]
            exact if_neg fun hh => he hh.symm
          obtain ⟨hv2, _, _⟩ := createArrayType_cache_miss _ of2 l2 hl2
          rw [hv2, ht1, hv1]
          simp [he]
        · have hl2 : CS.lookupAssocNat
              (CS.createArrayType st of1 l1).1.arrayTypeMap of2 = some b := by
            rw [hm1]
            exact lookupAssocNat_append_some _ h2
          have hv2 : (CS.createArrayType (CS.createArrayType st of1 l1).1 of2 l2).2
              = b := by
            rw [createArrayType_cache_hit _ of2 l2 hl2]
          rw [hv2, hv1]
          have hb : b < st.types.length := hab _ (lookupAssocNat_mem h2)
          simp [Nat.ne_of_lt hb, he]
    · have hs1 : (CS.createArrayType st of1 l1).1 = st := by
        rw [createArrayType_cache_hit st of1 l1 h1]
      have hv1 : (CS.createArrayType st of1 l1).2 = a := by
        rw [createArrayType_cache_hit st of1 l1 h1]
      rw [hs1, hv1]
      rcases h2 : CS.lookupAssocNat st.arrayTypeMap of2 with _ | b
      · obtain ⟨hv2, _, _⟩ := createArrayType_cache_miss st of2 l2 h2
        rw [hv2]
        have hx : a < st.types.length := hab _ (lookupAssocNat_mem h1)
        constructor
        · intro hlen
          exact absurd hlen.symm (Nat.ne_of_lt hx)
        · intro he2
          rw [he2] at h2
          rw [h1] at h2
          simp at h2
      · have hv2 : (CS.createArrayType st of2 l2).2 = b := by
          rw [createArrayType_cache_hit st of2 l2 h2]
        rw [hv2]
        constructor
        · intro hv
          exact hai _ (lookupAssocNat_mem h2) _ (lookupAssocNat_mem h1) hv
        · intro he2
          rw [he2] at h2
          rw [h1] at h2
          exact (Option.some.inj h2).symm
  · -- pointers
    rcases h1 : CS.lookupAssocNat st.pointerTypeMap p1 with _ | a
    · obtain ⟨hv1, hm1, ht1⟩ := createPointerType_cache_miss st p1 l1 h1
      by_cases he : p2 = p1
      · subst he
        have hl2 : CS.lookupAssocNat
            (CS.createPointerType st p2 l1).1.pointerTypeMap p2
            = some st.types.length := by
          rw [hm1, lookupAssocNat_append_none p2 st.types.length h1]
          simp
        have hv2 : (CS.createPointerType (CS.createPointerType st p2 l1).1 p2 l2).2
            = st.types.length := by
          rw [createPointerType_cache_hit _ p2 l2 hl2]
        rw [hv2, hv1]
        simp
      · rcases h2 : CS.lookupAssocNat st.pointerTypeMap p2 with _ | b
        · have hl2 : CS.lookupAssocNat
              (CS.createPointerType st p1 l1).1.pointerTypeMap p2 = none := by
            rw [hm1, lookupAssocNat_append_none p1 st.types.length h2]
            exact if_neg fun hh => he hh.symm
          obtain ⟨hv2, _, _⟩ := createPointerType_cache_miss _ p2 l2 hl2
          rw [hv2, ht1, hv1]
          simp [he]
        · have hl2 : CS.lookupAssocNat
              (CS.createPointerType st p1 l1).1.pointerTypeMap p2 = some b := by
            rw [hm1]
            exact lookupAssocNat_append_some _ h2
          have hv2 : (CS.createPointerType (CS.createPointerType st p1 l1).1 p2 l2).2
              = b := by
            rw [createPointerType_cache_hit _ p2 l2 hl2]
          rw [hv2, hv1]
          have hb : b < st.types.length := hpb _ (lookupAssocNat_mem h2)
          simp [Nat.ne_of_lt hb, he]
    · have hs1 : (CS.createPointerType st p1 l1).1 = st := by
        rw [createPointerType_cache_hit st p1 l1 h1]
      have hv1 : (CS.createPointerType st p1 l1).2 = a := by
        rw [createPointerType_cache_hit st p1 l1 h1]
      rw [hs1, hv1]
      rcases h2 : CS.lookupAssocNat st.pointerTypeMap p2 with _ | b
      · obtain ⟨hv2, _, _⟩ := createPointerType_cache_miss st p2 l2 h2
        rw [hv2]
        have hx : a < st.types.length := hpb _ (lookupAssocNat_mem h1)
        constructor
        · intro hlen
          exact absurd hlen.symm (Nat.ne_of_lt hx)
        · intro he2
          rw [he2] at h2
          rw [h1] at h2
          simp at h2
      · have hv2 : (CS.createPointerType st p2 l2).2 = b := by
          rw [createPointerType_cache_hit st p2 l2 h2]
        rw [hv2]
        constructor
        · intro hv
          exact hpi _ (lookupAssocNat_mem h2) _ (lookupAssocNat_mem h1) hv
        · intro he2
          rw [he2] at h2
          rw [h1] at h2
          exact (Option.some.inj h2).symm
  · -- specializations
    rcases h1 : CS.lookupAssoc st.specializedTypeMap (CS.specKey st g1 a1)
      with _ | s
    · obtain ⟨hv1, hm1, x, hx⟩ := createSpecializedType_cache_miss st g1 a1 l1 h1
      have hkey : CS.specKey (CS.createSpecializedType st g1 a1 l1).1 g2 a2
          = CS.specKey st g2 a2 := specKey_of_types_append hx hg ha
      by_cases he : CS.specKey st g2 a2 = CS.specKey st g1 a1
      · have hl2 : CS.lookupAssoc
            (CS.createSpecializedType st g1 a1 l1).1.specializedTypeMap
            (CS.specKey (CS.createSpecializedType st g1 a1 l1).1 g2 a2)
            = some st.types.length := by
          rw [hkey, he, hm1, lookupAssoc_append_none _ st.types.length h1]
          simp
        have hv2 : (CS.createSpecializedType
            (CS.createSpecializedType st g1 a1 l1).1 g2 a2 l2).2
            = st.types.length := by
          rw [createSpecializedType_cache_hit _ g2 a2 l2 hl2]
        rw [hv2, hv1]
        simp [he]
      · rcases h2 : CS.lookupAssoc st.specializedTypeMap (CS.specKey st g2 a2)
          with _ | s2
        · have hl2 : CS.lookupAssoc
              (CS.createSpecializedType st g1 a1 l1).1.specializedTypeMap
              (CS.specKey (CS.createSpecializedType st g1 a1 l1).1 g2 a2)
              = none := by
            rw [hkey, hm1, lookupAssoc_append_none _ st.types.length h2]
            exact if_neg fun hh => he hh.symm
          obtain ⟨hv2, _, _, _⟩ := createSpecializedType_cache_miss _ g2 a2 l2 hl2
          rw [hv2, hv1, hx]
          simp [he]
        · have hl2 : CS.lookupAssoc
              (CS.createSpecializedType st g1 a1 l1).1.specializedTypeMap
              (CS.specKey (CS.createSpecializedType st g1 a1 l1).1 g2 a2)
              = some s2 := by
            rw [hkey, hm1]
            exact lookupAssoc_append_some _ h2
          have hv2 : (CS.createSpecializedType
              (CS.createSpecializedType st g1 a1 l1).1 g2 a2 l2).2 = s2 := by
            rw [createSpecializedType_cache_hit _ g2 a2 l2 hl2]
          rw [hv2, hv1]
          have hb : s2 < st.types.length := hsb _ (lookupAssoc_mem h2)
          simp [Nat.ne_of_lt hb, he]
    · have hs1 : (CS.createSpecializedType st g1 a1 l1).1 = st := by
        rw [createSpecializedType_cache_hit st g1 a1 l1 h1]
      have hv1 : (CS.createSpecializedType st g1 a1 l1).2 = s := by
        rw [createSpecializedType_cache_hit st g1 a1 l1 h1]
      rw [hs1, hv1]
      rcases h2 : CS.lookupAssoc st.specializedTypeMap (CS.specKey st g2 a2)
        with _ | s2
      · obtain ⟨hv2, _, _, _⟩ := createSpecializedType_cache_miss st g2 a2 l2 h2
        rw [hv2]
        have hx : s < st.types.length := hsb _ (lookupAssoc_mem h1)
        constructor
        · intro hlen
          exact absurd hlen.symm (Nat.ne_of_lt hx)
        · intro he2
          rw [he2] at h2
          rw [h1] at h2
          simp at h2
      · have hv2 : (CS.createSpecializedType st g2 a2 l2).2 = s2 := by
          rw [createSpecializedType_cache_hit st g2 a2 l2 h2]
        rw [hv2]
        constructor
        · intro hv
          exact hsi _ (lookupAssoc_mem h2) _ (lookupAssoc_mem h1) hv
        · intro he2
          rw [he2] at h2
          rw [h1] at h2
          exact (Option.some.inj h2).symm

/-- Witness for `c2_derived_types_interned_by_key`: in the plain module
state (all interning maps empty, seven builtin types), creating `int[]`
twice, `int*` twice, and the same specialization twice, each pair of keys
agreeing. -/
theorem c2_derived_types_interned_by_key_witness :
    (5 < inModuleState.types.length)
    ∧ (((CS.createArrayType (CS.createArrayType inModuleState 3 {}).1 3 {}).2
          = (CS.createArrayType inModuleState 3 {}).2 ↔ (3 : Nat) = 3)
       ∧ ((CS.createPointerType (CS.createPointerType inModuleState 3 {}).1 3 {}).2
          = (CS.createPointerType inModuleState 3 {}).2 ↔ (3 : Nat) = 3)
       ∧ ((CS.createSpecializedType
             (CS.createSpecializedType inModuleState 5 [3] {}).1 5 [3] {}).2
          = (CS.createSpecializedType inModuleState 5 [3] {}).2
         ↔ CS.specKey inModuleState 5 [3] = CS.specKey inModuleState 5 [3])) :=
  ⟨by decide,
   c2_derived_types_interned_by_key inModuleState 3 3 3 3 5 5 [3] [3] {} {}
    (by intro p hp; simp [inModuleState, coreState] at hp)
    (by intro p hp; simp [inModuleState, coreState] at hp)
    (by intro p hp; simp [inModuleState, coreState] at hp)
    (by intro p hp; simp [inModuleState, coreState] at hp)
    (by intro p hp; simp [inModuleState, coreState] at hp)
    (by intro p hp; simp [inModuleState, coreState] at hp)
    (by decide)
    (by decide)⟩
set_option maxRecDepth 20000 in
set_option maxHeartbeats 4000000 in
/-- Witness for `c5_annotation_args_bound`: binding `[Info("x")]` against
the two-field attribute `Info` in the concrete state. -/
theorem c5_annotation_args_bound_witness :
    CS.requireTypeQ 10 c5State c5Anno.name none = (c5Req.1, some 7)
    ∧ (c5Req.1.getType 7).kind = CS.TKind.attr
    ∧ ((CS.translateAnno 10 c5State c5Anno).2.typeIdx = some 7
       ∧ ((c5Req.1.getType 7).fields.length < c5Anno.args.length →
           (CS.translateAnno 10 c5State c5Anno).2.args = []
           ∧ (CS.translateAnno 10 c5State c5Anno).1.errCount
               = c5State.errCount + 1)
       ∧ (c5Anno.args.length ≤ (c5Req.1.getType 7).fields.length →
           (CS.translateAnno 10 c5State c5Anno).2.args.length
               = (c5Req.1.getType 7).fields.length
           ∧ (CS.translateAnno 10 c5State c5Anno).2.args.take c5Anno.args.length
               = translatedArgs 10 c5Req.1 c5Anno.args
           ∧ (CS.translateAnno 10 c5State c5Anno).2.args.drop c5Anno.args.length
               = ((c5Req.1.getType 7).fields.drop c5Anno.args.length).map
                   (fun f => f.defaultValue.getD (CS.SValue.vnull {}))
           ∧ ((∃ f ∈ (c5Req.1.getType 7).fields.drop c5Anno.args.length,
                 f.defaultValue = none) →
               c5State.errCount < (CS.translateAnno 10 c5State c5Anno).1.errCount))
       ∧ ((CS.translateAnno 10 c5State c5Anno).1.errCount = c5State.errCount →
           (CS.translateAnno 10 c5State c5Anno).2.args.length
               = (c5Req.1.getType 7).fields.length)) := by
  have h1 : CS.requireTypeQ 10 c5State c5Anno.name none = (c5Req.1, some 7) := rfl
  have h2 : (c5Req.1.getType 7).kind = CS.TKind.attr := rfl
  exact ⟨h1, h2, c5_annotation_args_bound 10 c5State c5Req.1 c5Anno 7 h1 h2⟩

end Sapc
